import Mathlib

/-
Shallow embedding of the `learn-summoner` example agents (src/learn/example_*/agent.py).

The agents are Python coroutines manipulating JSON-like payloads (dicts whose
values are `None`, strings, or nested dicts), per-peer relation maps
(`relations`, `outside_view` : dict from sender id to state name), one-shot
outbox lists, and a `listening` mode flag.  We embed:

  * Python values as the inductive `Val` (null / string / dict); the payload
    shapes the agents exchange never need numbers or lists in the claims
    under study, and string representations of containers are abstracted
    (no claim depends on them);
  * Python dicts as insertion-ordered association lists, with `dlookup`
    (`d[k]` / `d.get(k)`), `dset` (`d[k] = v`: update in place, append if
    absent), and `setdefault`;
  * fallible Python code (KeyError on missing keys, TypeError on slicing a
    non-string) in `Except PyErr`, threading the mutable state alongside so
    that the state at the moment an exception is raised stays observable;
  * each agent's hooks, handlers and state-sync callbacks as pure functions
    from (state, input) to (result, state).
-/

set_option autoImplicit false

/-- A Python value as the example agents use them: `None`, a string, or a
string-keyed dict (insertion ordered, like Python dicts). -/
inductive Val where
  | null : Val
  | str (s : String) : Val
  | dict (entries : List (String × Val)) : Val
  deriving Repr

mutual

/-- Structural boolean equality on `Val` (Python `==` on these values). -/
def Val.beq : Val → Val → Bool
  | .null, .null => true
  | .str a, .str b => a == b
  | .dict a, .dict b => Val.beqEntries a b
  | _, _ => false

/-- Entrywise boolean equality on dict entry lists. -/
def Val.beqEntries : List (String × Val) → List (String × Val) → Bool
  | [], [] => true
  | (k, v) :: r, (l, w) :: t => k == l && Val.beq v w && Val.beqEntries r t
  | _, _ => false

end

mutual

theorem Val.beq_iff : ∀ a b : Val, Val.beq a b = true ↔ a = b
  | .null, .null => by simp [Val.beq]
  | .null, .str _ => by simp [Val.beq]
  | .null, .dict _ => by simp [Val.beq]
  | .str _, .null => by simp [Val.beq]
  | .str a, .str b => by simp [Val.beq]
  | .str _, .dict _ => by simp [Val.beq]
  | .dict _, .null => by simp [Val.beq]
  | .dict _, .str _ => by simp [Val.beq]
  | .dict a, .dict b => by
      simp only [Val.beq, Val.dict.injEq]
      exact Val.beqEntries_iff a b

theorem Val.beqEntries_iff : ∀ a b : List (String × Val),
    Val.beqEntries a b = true ↔ a = b
  | [], [] => by simp [Val.beqEntries]
  | [], _ :: _ => by simp [Val.beqEntries]
  | _ :: _, [] => by simp [Val.beqEntries]
  | (k, v) :: r, (l, w) :: t => by
      simp only [Val.beqEntries, Bool.and_eq_true, beq_iff_eq, List.cons.injEq,
        Prod.mk.injEq]
      rw [Val.beq_iff v w, Val.beqEntries_iff r t]

end

instance : DecidableEq Val := fun a b =>
  decidable_of_iff (Val.beq a b = true) (Val.beq_iff a b)

abbrev PyDict := List (String × Val)

/-- `d[k]` as a total lookup returning `Option` (first binding wins;
our dict operations keep keys distinct, as Python dicts do). -/
def dlookup {α : Type} : List (String × α) → String → Option α
  | [], _ => none
  | (k, v) :: rest, key => if k = key then some v else dlookup rest key

/-- `k in d`. -/
def hasKey {α : Type} (d : List (String × α)) (k : String) : Bool :=
  (dlookup d k).isSome

/-- Python `d[k] = v`: replaces the value in place if the key is present
(keeping insertion order), appends the binding otherwise. -/
def dset {α : Type} : List (String × α) → String → α → List (String × α)
  | [], k, v => [(k, v)]
  | (k', v') :: rest, k, v =>
      if k' = k then (k, v) :: rest else (k', v') :: dset rest k v

/-- Python `d.setdefault(k, v)`: inserts `k ↦ v` only if `k` is absent. -/
def setdefault {α : Type} (d : List (String × α)) (k : String) (v : α) :
    List (String × α) :=
  if hasKey d k then d else d ++ [(k, v)]

/-- Python truthiness test (`if not sender_id`) restricted to the values of
`Val`: `None`, the empty string and the empty dict are falsy. -/
def Val.isFalsy : Val → Bool
  | .null => true
  | .str s => s = ""
  | .dict d => d.isEmpty

/-- Python `str(v)` as used in the agents' f-strings.  `str` and `None`
follow Python exactly; the rendering of a nested dict is abstracted (no
claim depends on a dict's string form). -/
def pyStr : Val → String
  | .null => "None"
  | .str s => s
  | .dict _ => "<dict>"

/-- Python `s.startswith(pre)`, computed over the strings' character
lists so that it is structurally recursive (evaluable in proofs). -/
def strStartsWith (s pre : String) : Bool :=
  pre.data.isPrefixOf s.data

/-- Splits off the first occurrence of `sep` in `l`: returns the characters
before it and the characters after it, or `none` when `sep` does not occur. -/
def breakOn (sep : List Char) : List Char → Option (List Char × List Char)
  | [] => none
  | c :: rest =>
      if sep.isPrefixOf (c :: rest) then some ([], (c :: rest).drop sep.length)
      else
        match breakOn sep rest with
        | none => none
        | some (pre, post) => some (c :: pre, post)

/-- Python `s == f[:len(s)]`, the prefix test used by `check_sender`,
over the strings' character lists. -/
def sliceEq (f s : String) : Bool :=
  f.data.take s.data.length == s.data

/-- The Python exceptions reachable in the embedded code. -/
inductive PyErr where
  | keyError (k : String) : PyErr
  | typeError : PyErr
  | sendError : PyErr
  deriving Repr, DecidableEq

/-- Decidable equality for `Except` results (needed to evaluate the
embedded fallible functions inside proofs). -/
instance {e a : Type} [DecidableEq e] [DecidableEq a] :
    DecidableEq (Except e a) := fun x y =>
  match x, y with
  | .error u, .error v =>
      if h : u = v then isTrue (by rw [h]) else isFalse (by simp [h])
  | .ok u, .ok v =>
      if h : u = v then isTrue (by rw [h]) else isFalse (by simp [h])
  | .error _, .ok _ => isFalse (by simp)
  | .ok _, .error _ => isFalse (by simp)

/-- The shared priority-0 RECEIVE hook `validate` (identical in
example_7/9/10/12, parametrised by the agent's `AGENT_ID`):

```python
if not (isinstance(msg, dict) and "remote_addr" in msg and "content" in msg): return
content = msg["content"]
if not isinstance(content, dict): return
if content.get("to", "") not in [None, AGENT_ID]: return
if "from" not in content: return   # logs "missing content.from"
return content
``` -/
def validate (agentId : String) (msg : Val) : Option Val :=
  match msg with
  | .dict m =>
    if hasKey m "remote_addr" && hasKey m "content" then
      match dlookup m "content" with
      | some content =>
        match content with
        | .dict c =>
          let toVal := (dlookup c "to").getD (.str "")
          if toVal = Val.null ∨ toVal = Val.str agentId then
            if hasKey c "from" then some content else none
          else none
        | _ => none
      | none => none
    else none
  | _ => none

/-! ### Example 9 — single global state, flat download list -/

namespace Ex9

/-- `download_states` of example_9: filter the candidate list to states whose
string form differs from the current one; adopt the first such candidate.
Returns the new value of the global `state`.

```python
states = [s for s in possible_states if str(s) != str(state)]
if states: state = states[0]
``` -/
def download_states (state : String) (possible_states : List String) : String :=
  match possible_states.filter (fun s => s != state) with
  | [] => state
  | s0 :: _ => s0

end Ex9

/-! ### Example 10 — per-sender relation map -/

namespace Ex10

/-- The prefix allowlist of example_10's `check_sender`. -/
def allowlist : List String :=
  ["ChangeMe_Agent_6", "ChangeMe_Agent_7", "ChangeMe_Agent_8",
   "ChangeMe_Agent_9", "ChangeMe_Agent_10"]

/-- The diagnostic line `check_sender` logs on rejection:
`f"[hook:recv] reject 'from':{content.get('from')} | 'type':{content.get('type')}"`. -/
def rejectLog (c : PyDict) : String :=
  "[hook:recv] reject \x27from\x27:" ++ pyStr ((dlookup c "from").getD .null)
    ++ " | \x27type\x27:" ++ pyStr ((dlookup c "type").getD .null)

/-- The priority-1 RECEIVE hook `check_sender` of example_10:

```python
if any(s == content.get("from","")[:len(s)] for s in allowlist): return content
else: client.logger.info(f"[hook:recv] reject 'from':... | 'type':...")
```

The slice `content.get("from","")[:len(s)]` raises `TypeError` when the
`from` value is not a string (the allowlist is non-empty, so the generator
always evaluates at least one slice); `content.get` on a non-dict raises
`AttributeError` (also mapped to `typeError` here).  The second component
collects the log lines emitted by the call. -/
def check_sender (content : Val) : Except PyErr (Option Val) × List String :=
  match content with
  | .dict c =>
    match (dlookup c "from").getD (.str "") with
    | .str f =>
        if allowlist.any (fun s => sliceEq f s) then
          (.ok (some content), [])
        else
          (.ok none, [rejectLog c])
    | _ => (.error .typeError, [])
  | _ => (.error .typeError, [])

/-- `upload_states` of example_10 over the per-sender map `relations`:

```python
sender_id = msg.get("from")
if not sender_id: return
relations.setdefault(sender_id, "register")
return { sender_id: relations[sender_id] }
```

Result: the returned snapshot (`none` embeds Python's bare `return`)
paired with the new value of `relations`. -/
def upload_states (relations : List (String × String)) (msg : Val) :
    Except PyErr (Option (List (String × String))) × List (String × String) :=
  match msg with
  | .dict m =>
    let sv := (dlookup m "from").getD .null
    if sv.isFalsy then (.ok none, relations)
    else
      match sv with
      | .str sid =>
          let r := setdefault relations sid "register"
          match dlookup r sid with
          | some v => (.ok (some [(sid, v)]), r)
          | none => (.error (.keyError sid), r)
      | _ => (.error .typeError, relations)
  | _ => (.error .typeError, relations)

/-- `download_states` of example_10: iterate over the pushed mapping; for
each sender, keep the candidates differing (as strings) from
`relations[sender_id]` and adopt the first one.

```python
for sender_id, sender_states in possible_states.items():
    states = [s for s in sender_states if str(s) != str(relations[sender_id])]
    if states: relations[sender_id] = states[0]
```

`relations[sender_id]` is evaluated inside the comprehension's condition,
so an empty candidate list raises nothing even for an unknown sender; a
non-empty list for an unknown sender raises `KeyError`.  On error the map
as mutated so far is returned alongside. -/
def download_states :
    List (String × String) → List (String × List String) →
      Except PyErr Unit × List (String × String)
  | rel, [] => (.ok (), rel)
  | rel, (sid, cands) :: rest =>
      match cands with
      | [] => download_states rel rest
      | _ :: _ =>
        match dlookup rel sid with
        | none => (.error (.keyError sid), rel)
        | some cur =>
            match cands.filter (fun s => s != cur) with
            | [] => download_states rel rest
            | s0 :: _ => download_states (dset rel sid s0) rest

end Ex10

/-! ### Example 12 — dual-namespace per-sender maps and one-shot outboxes -/

namespace Ex12

/-- The two per-sender maps of example_12: `relations` ("to_me": how we
classify the sender) and `outside_view` ("to_them": how we believe the
sender classifies us). -/
structure St12 where
  relations : List (String × String)
  outside_view : List (String × String)
  deriving Repr, DecidableEq

/-- `upload_states` of example_12:

```python
sender_id = msg.get("from")
if not sender_id: return
relations.setdefault(sender_id, "register")
outside_view.setdefault(sender_id, "neutral")
return { f"to_me:{sender_id}": relations[sender_id],
         f"to_them:{sender_id}": outside_view[sender_id] }
```

(The `view_states` dictionary built in between is consumed only by the
visualizer and touches neither map, so it is not modelled.) -/
def upload_states (st : St12) (msg : Val) :
    Except PyErr (Option (List (String × String))) × St12 :=
  match msg with
  | .dict m =>
    let sv := (dlookup m "from").getD .null
    if sv.isFalsy then (.ok none, st)
    else
      match sv with
      | .str sid =>
          let r := setdefault st.relations sid "register"
          let o := setdefault st.outside_view sid "neutral"
          let st' : St12 := ⟨r, o⟩
          match dlookup r sid, dlookup o sid with
          | some rv, some ov =>
              (.ok (some [("to_me:" ++ sid, rv), ("to_them:" ++ sid, ov)]), st')
          | none, _ => (.error (.keyError sid), st')
          | some _, none => (.error (.keyError sid), st')
      | _ => (.error .typeError, st)
  | _ => (.error .typeError, st)

/-- Python `key.split(sep)[1]`: the segment of `key` between the first and
the second occurrence of `sep` (to the end when `sep` occurs only once).
When `sep` does not occur at all, Python's `[1]` would raise `IndexError`,
but every call site guards this with `key.startswith(sep)`; that
unreachable case returns `""`. -/
def sidAfter (sep k : String) : String :=
  match breakOn sep.data k.data with
  | none => ""
  | some (_, post) =>
      match breakOn sep.data post with
      | none => ⟨post⟩
      | some (pre2, _) => ⟨pre2⟩

/-- The `to_me:` branch of example_12's `download_states` for one key:

```python
if sender_id_.startswith("to_me:"):
    sender_id = sender_id_.split("to_me:")[1]
    states = [s for s in sender_states if str(s) != str(relations[sender_id])]
    if states: relations[sender_id] = states[0]
```

`relations[sender_id]` is evaluated inside the comprehension, so an empty
candidate list raises nothing; a non-empty list with an unknown sender
raises `KeyError`. -/
def stepToMe (st : St12) (k : String) (cands : List String) :
    Except PyErr St12 :=
  if strStartsWith k "to_me:" then
    let sid := sidAfter "to_me:" k
    match cands with
    | [] => .ok st
    | _ :: _ =>
      match dlookup st.relations sid with
      | none => .error (.keyError sid)
      | some cur =>
          match cands.filter (fun s => s != cur) with
          | [] => .ok st
          | s0 :: _ => .ok ⟨dset st.relations sid s0, st.outside_view⟩
  else .ok st

/-- The `to_them:` branch of example_12's `download_states` for one key
(same shape as `stepToMe`, over `outside_view`). -/
def stepToThem (st : St12) (k : String) (cands : List String) :
    Except PyErr St12 :=
  if strStartsWith k "to_them:" then
    let sid := sidAfter "to_them:" k
    match cands with
    | [] => .ok st
    | _ :: _ =>
      match dlookup st.outside_view sid with
      | none => .error (.keyError sid)
      | some cur =>
          match cands.filter (fun s => s != cur) with
          | [] => .ok st
          | s0 :: _ => .ok ⟨st.relations, dset st.outside_view sid s0⟩
  else .ok st

/-- `download_states` of example_12: iterate over the pushed mapping's
items in order; each key is run through the `to_me:` branch and then the
`to_them:` branch (the two sequential `if` statements of the source).
On an exception, iteration stops and the maps as mutated so far are
returned alongside the error. -/
def download_states : St12 → List (String × List String) →
    Except PyErr Unit × St12
  | st, [] => (.ok (), st)
  | st, (k, cands) :: rest =>
      match stepToMe st k cands with
      | .error e => (.error e, st)
      | .ok st1 =>
        match stepToThem st1 k cands with
        | .error e => (.error e, st1)
        | .ok st2 => download_states st2 rest

/-- The gated sender on `register --> contact` (named
`send_from_register_to_contact` in the source):

```python
try:
    return [{"to": contact_id, "message": "You are my contact"} for contact_id in contact_list]
finally:
    contact_list = []
```

`emitOk = false` embeds a failure raised by the body before it returns
(claim C1's "send body raises"); the `finally` block clears the outbox
list either way, which is why the second component is `[]` in both
branches. -/
def send_from_register_to_contact (emitOk : Bool) (contact_list : List Val) :
    Except PyErr (List PyDict) × List Val :=
  ((if emitOk then
      .ok (contact_list.map fun contact_id =>
        [("to", contact_id), ("message", Val.str "You are my contact")])
    else .error .sendError), [])

/-- The gated sender on `register --> ban` (also named
`send_from_register_to_contact` in the source; Python lets the later
definition shadow the name, the decorator has already registered each). -/
def send_from_register_to_ban (emitOk : Bool) (ban_list : List Val) :
    Except PyErr (List PyDict) × List Val :=
  ((if emitOk then
      .ok (ban_list.map fun banned_id =>
        [("to", banned_id), ("message", Val.str "You are banned")])
    else .error .sendError), [])

/-- The gated sender on `contact --> friend` (same shadowed source name). -/
def send_from_contact_to_friend (emitOk : Bool) (friend_list : List Val) :
    Except PyErr (List PyDict) × List Val :=
  ((if emitOk then
      .ok (friend_list.map fun friend_id =>
        [("to", friend_id), ("message", Val.str "You are my friend")])
    else .error .sendError), [])

/-- The helper `msg(string)` inside the `reputation` sender: maps a status
label to outgoing text; any other label falls through and Python returns
`None`. -/
def statusText (s : String) : Val :=
  if s = "good" then .str "I like you"
  else if s = "bad" then .str "I don\x27t like you"
  else .null

/-- The periodic `reputation` sender (named `send_on_clock` in the source):

```python
return [{"to": d["to"], "message": msg(d["status"])} for d in to_them_list]
```

One entry of `to_them_list` is `{"to": <sender>, "status": <label>}`,
embedded as a pair.  Note the list is *not* cleared: the second component
returns it unchanged. -/
def send_on_clock_reputation (to_them_list : List (Val × String)) :
    List PyDict × List (Val × String) :=
  (to_them_list.map fun d => [("to", d.1), ("message", statusText d.2)],
   to_them_list)

end Ex12

/-! ### Example 13 — listening mode gate -/

namespace Ex13

/-- The full mutable state of the example_13 agent: the `listening` mode
flag, the two per-sender maps, and the four one-shot outbox lists. -/
structure St13 where
  listening : Bool
  relations : List (String × String)
  outside_view : List (String × String)
  contact_list : List Val
  ban_list : List Val
  friend_list : List Val
  to_them_list : List (Val × String)
  deriving Repr, DecidableEq

/-- The prefix allowlist of example_13's `check_sender`. -/
def allowlist : List String :=
  ["ChangeMe_Agent_6", "ChangeMe_Agent_7", "ChangeMe_Agent_8",
   "ChangeMe_Agent_9", "ChangeMe_Agent_10", "ChangeMe_Agent_11",
   "ChangeMe_Agent_12", "ChangeMe_Agent_13"]

/-- The priority-0 RECEIVE hook `validate` of example_13.  It extends the
shared `validate` with the control-token special case, placed before the
dict check:

```python
if content == "/travel" and listening:
    return content
if not isinstance(content, dict): return
if content.get("to", "") not in [None, AGENT_ID]: return
if "from" not in content: return
return content
``` -/
def validate (listening : Bool) (agentId : String) (msg : Val) : Option Val :=
  match msg with
  | .dict m =>
    if hasKey m "remote_addr" && hasKey m "content" then
      match dlookup m "content" with
      | some content =>
        if content = Val.str "/travel" ∧ listening then some content
        else
          match content with
          | .dict c =>
            let toVal := (dlookup c "to").getD (.str "")
            if toVal = Val.null ∨ toVal = Val.str agentId then
              if hasKey c "from" then some content else none
            else none
          | _ => none
      | none => none
    else none
  | _ => none

/-- The priority-1 RECEIVE hook `check_sender` of example_13: passes the
control token through while listening, otherwise the prefix allowlist test
of example_10/12 (`content.get` on the non-dict `"/travel"` raises
`AttributeError`, mapped to `typeError`). -/
def check_sender (listening : Bool) (content : Val) :
    Except PyErr (Option Val) × List String :=
  if content = Val.str "/travel" ∧ listening then (.ok (some content), [])
  else
    match content with
    | .dict c =>
      match (dlookup c "from").getD (.str "") with
      | .str f =>
          if allowlist.any (fun s => sliceEq f s) then
            (.ok (some content), [])
          else
            (.ok none, [Ex10.rejectLog c])
      | _ => (.error .typeError, [])
    | _ => (.error .typeError, [])

/-- The `listen --> register` handler (named `on_register` in the source):

```python
if listening and msg == "/travel":
    await client.travel_to(host=..., port=...)   # external effect only
    listening = False
    return Move(Trigger.ok)
```

The returned `Bool` records whether the handler fired (`Move`). -/
def on_travel (st : St13) (msg : Val) : St13 × Bool :=
  if st.listening ∧ msg = Val.str "/travel" then
    ({ st with listening := false }, true)
  else (st, false)

/-- The `register --> contact` handler: on `msg["message"] == "Hello"`,
append `msg["from"]` to `contact_list` and `Move`.  A missing key raises
`KeyError`, a non-dict `msg` raises `TypeError`; either way no state was
mutated yet. -/
def handler_register_contact (st : St13) (msg : Val) :
    Except PyErr (St13 × Bool) :=
  match msg with
  | .dict m =>
    match dlookup m "message" with
    | none => .error (.keyError "message")
    | some mv =>
        if mv = Val.str "Hello" then
          match dlookup m "from" with
          | none => .error (.keyError "from")
          | some fv =>
              .ok ({ st with contact_list := st.contact_list ++ [fv] }, true)
        else .ok (st, false)
  | _ => .error .typeError

/-- The `register --> ban` handler (trigger text `"I don't like you"`). -/
def handler_register_ban (st : St13) (msg : Val) :
    Except PyErr (St13 × Bool) :=
  match msg with
  | .dict m =>
    match dlookup m "message" with
    | none => .error (.keyError "message")
    | some mv =>
        if mv = Val.str "I don\x27t like you" then
          match dlookup m "from" with
          | none => .error (.keyError "from")
          | some fv =>
              .ok ({ st with ban_list := st.ban_list ++ [fv] }, true)
        else .ok (st, false)
  | _ => .error .typeError

/-- The `contact --> friend` handler (trigger text `"I like you"`). -/
def handler_contact_friend (st : St13) (msg : Val) :
    Except PyErr (St13 × Bool) :=
  match msg with
  | .dict m =>
    match dlookup m "message" with
    | none => .error (.keyError "message")
    | some mv =>
        if mv = Val.str "I like you" then
          match dlookup m "from" with
          | none => .error (.keyError "from")
          | some fv =>
              .ok ({ st with friend_list := st.friend_list ++ [fv] }, true)
        else .ok (st, false)
  | _ => .error .typeError

/-- The `neutral --> good` handler: appends
`{"to": msg["from"], "status": "good"}` to `to_them_list`. -/
def handler_neutral_good (st : St13) (msg : Val) :
    Except PyErr (St13 × Bool) :=
  match msg with
  | .dict m =>
    match dlookup m "message" with
    | none => .error (.keyError "message")
    | some mv =>
        if mv = Val.str "You are my contact" then
          match dlookup m "from" with
          | none => .error (.keyError "from")
          | some fv =>
              .ok ({ st with to_them_list := st.to_them_list ++ [(fv, "good")] }, true)
        else .ok (st, false)
  | _ => .error .typeError

/-- The `neutral --> bad` handler. -/
def handler_neutral_bad (st : St13) (msg : Val) :
    Except PyErr (St13 × Bool) :=
  match msg with
  | .dict m =>
    match dlookup m "message" with
    | none => .error (.keyError "message")
    | some mv =>
        if mv = Val.str "You are banned" then
          match dlookup m "from" with
          | none => .error (.keyError "from")
          | some fv =>
              .ok ({ st with to_them_list := st.to_them_list ++ [(fv, "bad")] }, true)
        else .ok (st, false)
  | _ => .error .typeError

/-- The `good --> very_good` handler. -/
def handler_good_very_good (st : St13) (msg : Val) :
    Except PyErr (St13 × Bool) :=
  match msg with
  | .dict m =>
    match dlookup m "message" with
    | none => .error (.keyError "message")
    | some mv =>
        if mv = Val.str "You are my friend" then
          match dlookup m "from" with
          | none => .error (.keyError "from")
          | some fv =>
              .ok ({ st with to_them_list := st.to_them_list ++ [(fv, "good")] }, true)
        else .ok (st, false)
  | _ => .error .typeError

/-- The state snapshot `upload_states` of example_13 returns: the single
state `"listen"` while listening, otherwise the namespaced two-key map. -/
inductive Snap13 where
  | single (s : String)
  | keyed (m : List (String × String))
  deriving Repr, DecidableEq

/-- `upload_states` of example_13: returns `"listen"` (no map mutation)
while listening, otherwise behaves as example_12's `upload_states`. -/
def upload_states (st : St13) (msg : Val) :
    Except PyErr (Option Snap13) × St13 :=
  if st.listening then (.ok (some (.single "listen")), st)
  else
    match msg with
    | .dict m =>
      let sv := (dlookup m "from").getD .null
      if sv.isFalsy then (.ok none, st)
      else
        match sv with
        | .str sid =>
            let r := setdefault st.relations sid "register"
            let o := setdefault st.outside_view sid "neutral"
            let st' : St13 := { st with relations := r, outside_view := o }
            match dlookup r sid, dlookup o sid with
            | some rv, some ov =>
                (.ok (some (.keyed [("to_me:" ++ sid, rv), ("to_them:" ++ sid, ov)])), st')
            | none, _ => (.error (.keyError sid), st')
            | some _, none => (.error (.keyError sid), st')
        | _ => (.error .typeError, st)
    | _ => (.error .typeError, st)

/-- `download_states` of example_13 may receive either a flat list or a
keyed mapping. -/
inductive DInput where
  | flat (l : List String)
  | keyed (m : List (String × List String))
  deriving Repr, DecidableEq

/-- `isinstance(possible_states, list)` normalization:
`possible_states = {"default": possible_states}`. -/
def normalizeInput : DInput → List (String × List String)
  | .flat l => [("default", l)]
  | .keyed m => m

/-- `download_states` of example_13: early return while listening, then
the normalization shim, then exactly the example_12 loop over
`relations` / `outside_view` (the loop body is textually identical, so it
is shared with `Ex12.download_states`). -/
def download_states (st : St13) (input : DInput) : Except PyErr Unit × St13 :=
  if st.listening then (.ok (), st)
  else
    let (r, st12) := Ex12.download_states ⟨st.relations, st.outside_view⟩
      (normalizeInput input)
    (r, { st with relations := st12.relations, outside_view := st12.outside_view })

/-- The `clock` sender of example_13: a no-op returning nothing while
listening, otherwise the broadcast `{"message": "Hello", "to": None}`.
It never mutates agent state. -/
def send_on_clock (st : St13) : Option PyDict :=
  if st.listening then none
  else some [("message", .str "Hello"), ("to", .null)]

/-- The `reputation` sender of example_13: `[]` while listening, otherwise
one payload per `to_them_list` entry; the list is not cleared. -/
def send_on_clock_reputation (st : St13) : List PyDict × St13 :=
  if st.listening then ([], st)
  else (st.to_them_list.map fun d => [("to", d.1), ("message", Ex12.statusText d.2)], st)

/-- The gated `register --> contact` drain of example_13 (try/finally as in
example_12): emits one payload per `contact_list` entry, clearing the list
even if emission fails. -/
def send_from_register_to_contact (emitOk : Bool) (st : St13) :
    Except PyErr (List PyDict) × St13 :=
  ((if emitOk then
      .ok (st.contact_list.map fun contact_id =>
        [("to", contact_id), ("message", Val.str "You are my contact")])
    else .error .sendError), { st with contact_list := [] })

/-- The gated `register --> ban` drain of example_13. -/
def send_from_register_to_ban (emitOk : Bool) (st : St13) :
    Except PyErr (List PyDict) × St13 :=
  ((if emitOk then
      .ok (st.ban_list.map fun banned_id =>
        [("to", banned_id), ("message", Val.str "You are banned")])
    else .error .sendError), { st with ban_list := [] })

/-- The gated `contact --> friend` drain of example_13. -/
def send_from_contact_to_friend (emitOk : Bool) (st : St13) :
    Except PyErr (List PyDict) × St13 :=
  ((if emitOk then
      .ok (st.friend_list.map fun friend_id =>
        [("to", friend_id), ("message", Val.str "You are my friend")])
    else .error .sendError), { st with friend_list := [] })

/-- One execution step of the example_13 agent: any hook, route handler,
state-sync callback or sender runs on the shared state with an arbitrary
input.  The RECEIVE/SEND hooks and the node-route handlers
(`register`/`contact`/`friend`/`ban`, which only log) never mutate agent
state, so they appear as the identity step `hook`.  A handler that raises
is caught by the engine before any mutation here (each embedded handler
mutates nothing on its error paths), so only the `.ok` outcomes make
steps. -/
inductive Step : St13 → St13 → Prop where
  | hook (st : St13) : Step st st
  | travel (st : St13) (msg : Val) : Step st (on_travel st msg).1
  | regContact (st : St13) (msg : Val) (r : St13 × Bool)
      (h : handler_register_contact st msg = .ok r) : Step st r.1
  | regBan (st : St13) (msg : Val) (r : St13 × Bool)
      (h : handler_register_ban st msg = .ok r) : Step st r.1
  | contactFriend (st : St13) (msg : Val) (r : St13 × Bool)
      (h : handler_contact_friend st msg = .ok r) : Step st r.1
  | neutralGood (st : St13) (msg : Val) (r : St13 × Bool)
      (h : handler_neutral_good st msg = .ok r) : Step st r.1
  | neutralBad (st : St13) (msg : Val) (r : St13 × Bool)
      (h : handler_neutral_bad st msg = .ok r) : Step st r.1
  | goodVeryGood (st : St13) (msg : Val) (r : St13 × Bool)
      (h : handler_good_very_good st msg = .ok r) : Step st r.1
  | upload (st : St13) (msg : Val) : Step st (upload_states st msg).2
  | download (st : St13) (input : DInput) : Step st (download_states st input).2
  | reputation (st : St13) : Step st (send_on_clock_reputation st).2
  | drainContact (st : St13) (emitOk : Bool) :
      Step st (send_from_register_to_contact emitOk st).2
  | drainBan (st : St13) (emitOk : Bool) :
      Step st (send_from_register_to_ban emitOk st).2
  | drainFriend (st : St13) (emitOk : Bool) :
      Step st (send_from_contact_to_friend emitOk st).2

/-- Zero or more execution steps. -/
def Reach : St13 → St13 → Prop := Relation.ReflTransGen Step

end Ex13

/-! ### Example 14 — download with defaulted lookups -/

namespace Ex14

/-- The `to_me:` branch of example_14's `download_states` for one key:
the lookup is `relations.get(sender_id, "")`, so an unknown sender cannot
raise; the assignment then inserts the key if absent. -/
def stepToMe (st : Ex12.St12) (k : String) (cands : List String) :
    Ex12.St12 :=
  if strStartsWith k "to_me:" then
    let sid := Ex12.sidAfter "to_me:" k
    match cands.filter (fun s => s != (dlookup st.relations sid).getD "") with
    | [] => st
    | s0 :: _ => ⟨dset st.relations sid s0, st.outside_view⟩
  else st

/-- The `to_them:` branch of example_14's `download_states` for one key. -/
def stepToThem (st : Ex12.St12) (k : String) (cands : List String) :
    Ex12.St12 :=
  if strStartsWith k "to_them:" then
    let sid := Ex12.sidAfter "to_them:" k
    match cands.filter (fun s => s != (dlookup st.outside_view sid).getD "") with
    | [] => st
    | s0 :: _ => ⟨st.relations, dset st.outside_view sid s0⟩
  else st

/-- The key loop of example_14's `download_states` (after the listening
guard and the list-normalization shim, which match example_13): total,
because every map access is defaulted via `.get(sender_id, "")`. -/
def downloadLoop : Ex12.St12 → List (String × List String) → Ex12.St12
  | st, [] => st
  | st, (k, cands) :: rest => downloadLoop (stepToThem (stepToMe st k cands) k cands) rest

/-- `download_states` of example_14 over the two maps (the dashboard
refresh and visualizer pushes read state but mutate nothing). -/
def download_states (listening : Bool) (st : Ex12.St12) (input : Ex13.DInput) :
    Ex12.St12 :=
  if listening then st
  else downloadLoop st (Ex13.normalizeInput input)

end Ex14

namespace Ex12

/-- The prefix allowlist of example_12's `check_sender`. -/
def allowlist : List String :=
  ["ChangeMe_Agent_6", "ChangeMe_Agent_7", "ChangeMe_Agent_8",
   "ChangeMe_Agent_9", "ChangeMe_Agent_10", "ChangeMe_Agent_11",
   "ChangeMe_Agent_12"]

/-- The priority-1 RECEIVE hook `check_sender` of example_12 (same code as
example_10's, with the longer allowlist). -/
def check_sender (content : Val) : Except PyErr (Option Val) × List String :=
  match content with
  | .dict c =>
    match (dlookup c "from").getD (.str "") with
    | .str f =>
        if allowlist.any (fun s => sliceEq f s) then
          (.ok (some content), [])
        else
          (.ok none, [Ex10.rejectLog c])
    | _ => (.error .typeError, [])
  | _ => (.error .typeError, [])

/-- Modelled from the spec: the hook-pipeline `run` rule (§4.3) of the
Summoner engine — the `SummonerClient` implementation is not under `src/`.
RECEIVE stages run in ascending priority order (`validate` at priority 0,
then `check_sender` at priority 1); a stage that returns nothing, or
raises, halts the chain, the message is dropped, and no route handler or
state-sync callback runs for it.  When both stages pass, the engine
invokes `upload_states` and dispatches to the route handlers; the second
component records whether dispatch was reached. -/
def processInbound (agentId : String) (st : St12) (msg : Val) :
    St12 × Bool :=
  match validate agentId msg with
  | none => (st, false)
  | some content =>
    match check_sender content with
    | (.ok (some passed), _) => ((upload_states st passed).2, true)
    | _ => (st, false)

end Ex12

namespace Ex12

/-- The keys of a pushed candidate mapping that example_12's
`download_states` resolves to the peer `p` in `relations`: those starting
with `"to_me:"` whose extracted sender id is `p`. -/
def relKeyFor (p : String) (kv : String × List String) : Bool :=
  strStartsWith kv.1 "to_me:" && (sidAfter "to_me:" kv.1 == p)

/-- The keys resolving to the peer `p` in `outside_view`. -/
def themKeyFor (p : String) (kv : String × List String) : Bool :=
  strStartsWith kv.1 "to_them:" && (sidAfter "to_them:" kv.1 == p)

/-- The presence precondition of example_12's `download_states`: every
recognized key with a non-empty candidate list names a peer already
present in the matching local map. -/
def PeersKnown (st : St12) (m : List (String × List String)) : Prop :=
  ∀ kv ∈ m, kv.2 ≠ [] →
    (strStartsWith kv.1 "to_me:" = true →
      hasKey st.relations (sidAfter "to_me:" kv.1) = true)
    ∧ (strStartsWith kv.1 "to_them:" = true →
      hasKey st.outside_view (sidAfter "to_them:" kv.1) = true)

end Ex12

/-! ### Dictionary lemmas -/

theorem dlookup_append {α : Type} (d e : List (String × α)) (k : String) :
    dlookup (d ++ e) k =
      match dlookup d k with
      | some v => some v
      | none => dlookup e k := by
  induction d with
  | nil => simp [dlookup]
  | cons kv rest ih =>
      obtain ⟨k', v'⟩ := kv
      by_cases h : k' = k
      · simp [dlookup, h]
      · simp [dlookup, h, ih]

theorem dlookup_dset {α : Type} (d : List (String × α)) (k : String) (v : α)
    (p : String) :
    dlookup (dset d k v) p = if p = k then some v else dlookup d p := by
  induction d with
  | nil =>
      by_cases h : p = k
      · simp [dset, dlookup, h]
      · simp [dset, dlookup, h, Ne.symm h]
  | cons kv rest ih =>
      obtain ⟨k', v'⟩ := kv
      by_cases hk : k' = k
      · subst hk
        by_cases hp : p = k'
        · subst hp; simp [dset, dlookup]
        · simp [dset, dlookup, hp, Ne.symm hp]
      · by_cases hp : p = k'
        · subst hp
          simp [dset, hk, dlookup, Ne.symm hk]
        · simp [dset, hk, dlookup, hp, Ne.symm hp, ih]

theorem dlookup_setdefault {α : Type} (d : List (String × α)) (k : String)
    (v : α) (p : String) :
    dlookup (setdefault d k v) p =
      if p = k then some ((dlookup d k).getD v) else dlookup d p := by
  unfold setdefault hasKey
  cases hd : dlookup d k with
  | some w =>
      simp only [hd, Option.isSome_some, if_true]
      by_cases hp : p = k
      · subst hp; simp [hd]
      · simp [hp]
  | none =>
      simp only [hd, Option.isSome_none, Bool.false_eq_true, if_false,
        dlookup_append]
      by_cases hp : p = k
      · subst hp; simp [hd, dlookup]
      · cases hdp : dlookup d p with
        | some w => simp [hp]
        | none => simp [dlookup, hp, Ne.symm hp]

theorem dlookup_setdefault_of_some {α : Type} {d : List (String × α)}
    {p : String} {v : α} (k : String) (w : α) (h : dlookup d p = some v) :
    dlookup (setdefault d k w) p = some v := by
  rw [dlookup_setdefault]
  by_cases hp : p = k
  · subst hp; simp [h]
  · simp [hp, h]

theorem setdefault_setdefault {α : Type} (d : List (String × α)) (k : String)
    (v : α) :
    setdefault (setdefault d k v) k v = setdefault d k v := by
  have h : hasKey (setdefault d k v) k = true := by
    unfold hasKey
    rw [dlookup_setdefault]
    simp
  unfold setdefault at *
  rw [h]
  simp

/-! ### Step lemmas for example_12's download loop -/

namespace Ex12

theorem stepToMe_eq_of_not_starts {st : St12} {k : String} {c : List String}
    (hs : ¬ strStartsWith k "to_me:" = true) : stepToMe st k c = .ok st := by
  unfold stepToMe
  rw [if_neg hs]

theorem stepToThem_eq_of_not_starts {st : St12} {k : String} {c : List String}
    (hs : ¬ strStartsWith k "to_them:" = true) : stepToThem st k c = .ok st := by
  unfold stepToThem
  rw [if_neg hs]

theorem stepToMe_cases {st : St12} {k : String} {c : List String} {st' : St12}
    (h : stepToMe st k c = .ok st') :
    st' = st ∨ ∃ s0, st' = ⟨dset st.relations (sidAfter "to_me:" k) s0,
      st.outside_view⟩ := by
  unfold stepToMe at h
  by_cases hs : strStartsWith k "to_me:" = true
  · rw [if_pos hs] at h
    cases c with
    | nil =>
        simp only [Except.ok.injEq] at h
        exact Or.inl h.symm
    | cons a l =>
        cases hl : dlookup st.relations (sidAfter "to_me:" k) with
        | none => simp [hl] at h
        | some cur =>
            simp only [hl] at h
            cases hf : List.filter (fun s => s != cur) (a :: l) with
            | nil =>
                simp only [hf, Except.ok.injEq] at h
                exact Or.inl h.symm
            | cons s0 t =>
                simp only [hf, Except.ok.injEq] at h
                exact Or.inr ⟨s0, h.symm⟩
  · rw [if_neg hs] at h
    simp only [Except.ok.injEq] at h
    exact Or.inl h.symm

theorem stepToThem_cases {st : St12} {k : String} {c : List String} {st' : St12}
    (h : stepToThem st k c = .ok st') :
    st' = st ∨ ∃ s0, st' = ⟨st.relations,
      dset st.outside_view (sidAfter "to_them:" k) s0⟩ := by
  unfold stepToThem at h
  by_cases hs : strStartsWith k "to_them:" = true
  · rw [if_pos hs] at h
    cases c with
    | nil =>
        simp only [Except.ok.injEq] at h
        exact Or.inl h.symm
    | cons a l =>
        cases hl : dlookup st.outside_view (sidAfter "to_them:" k) with
        | none => simp [hl] at h
        | some cur =>
            simp only [hl] at h
            cases hf : List.filter (fun s => s != cur) (a :: l) with
            | nil =>
                simp only [hf, Except.ok.injEq] at h
                exact Or.inl h.symm
            | cons s0 t =>
                simp only [hf, Except.ok.injEq] at h
                exact Or.inr ⟨s0, h.symm⟩
  · rw [if_neg hs] at h
    simp only [Except.ok.injEq] at h
    exact Or.inl h.symm

theorem stepToMe_outside_view {st : St12} {k : String} {c : List String}
    {st' : St12} (h : stepToMe st k c = .ok st') :
    st'.outside_view = st.outside_view := by
  rcases stepToMe_cases h with h' | ⟨s0, h'⟩ <;> rw [h']

theorem stepToThem_relations {st : St12} {k : String} {c : List String}
    {st' : St12} (h : stepToThem st k c = .ok st') :
    st'.relations = st.relations := by
  rcases stepToThem_cases h with h' | ⟨s0, h'⟩ <;> rw [h']

theorem stepToMe_rel_isSome {st : St12} {k : String} {c : List String}
    {st' : St12} {p : String} (h : stepToMe st k c = .ok st')
    (hp : (dlookup st.relations p).isSome = true) :
    (dlookup st'.relations p).isSome = true := by
  rcases stepToMe_cases h with h' | ⟨s0, h'⟩
  · rw [h']; exact hp
  · rw [h']
    simp only
    rw [dlookup_dset]
    split
    · simp
    · exact hp

theorem stepToThem_ov_isSome {st : St12} {k : String} {c : List String}
    {st' : St12} {p : String} (h : stepToThem st k c = .ok st')
    (hp : (dlookup st.outside_view p).isSome = true) :
    (dlookup st'.outside_view p).isSome = true := by
  rcases stepToThem_cases h with h' | ⟨s0, h'⟩
  · rw [h']; exact hp
  · rw [h']
    simp only
    rw [dlookup_dset]
    split
    · simp
    · exact hp

end Ex12

namespace Ex12

theorem stepToMe_rel_untouched {st : St12} {k : String} {c : List String}
    {st' : St12} {p : String}
    (hk : relKeyFor p (k, c) = false) (h : stepToMe st k c = .ok st') :
    dlookup st'.relations p = dlookup st.relations p := by
  by_cases hs : strStartsWith k "to_me:" = true
  · have hsid : sidAfter "to_me:" k ≠ p := by
      intro he
      rw [relKeyFor] at hk
      simp [hs, he] at hk
    rcases stepToMe_cases h with h' | ⟨s0, h'⟩
    · rw [h']
    · rw [h']
      simp only
      rw [dlookup_dset, if_neg (fun hpe => hsid hpe.symm)]
  · rw [stepToMe_eq_of_not_starts hs] at h
    simp only [Except.ok.injEq] at h
    rw [← h]

theorem stepToThem_ov_untouched {st : St12} {k : String} {c : List String}
    {st' : St12} {p : String}
    (hk : themKeyFor p (k, c) = false) (h : stepToThem st k c = .ok st') :
    dlookup st'.outside_view p = dlookup st.outside_view p := by
  by_cases hs : strStartsWith k "to_them:" = true
  · have hsid : sidAfter "to_them:" k ≠ p := by
      intro he
      rw [themKeyFor] at hk
      simp [hs, he] at hk
    rcases stepToThem_cases h with h' | ⟨s0, h'⟩
    · rw [h']
    · rw [h']
      simp only
      rw [dlookup_dset, if_neg (fun hpe => hsid hpe.symm)]
  · rw [stepToThem_eq_of_not_starts hs] at h
    simp only [Except.ok.injEq] at h
    rw [← h]

theorem stepToMe_rel_touched {st : St12} {k : String} {c : List String}
    {p rv : String}
    (hk : relKeyFor p (k, c) = true) (hcur : dlookup st.relations p = some rv) :
    stepToMe st k c =
      .ok (match c.filter (fun s => s != rv) with
           | [] => st
           | s0 :: _ => ⟨dset st.relations p s0, st.outside_view⟩) := by
  rw [relKeyFor, Bool.and_eq_true, beq_iff_eq] at hk
  obtain ⟨hs, hsid⟩ := hk
  unfold stepToMe
  rw [if_pos hs, hsid]
  dsimp only
  cases c with
  | nil => simp
  | cons a l =>
      rw [hcur]
      cases hf : List.filter (fun s => s != rv) (a :: l) with
      | nil => simp [hf]
      | cons s0 t => simp [hf]

theorem stepToThem_ov_touched {st : St12} {k : String} {c : List String}
    {p rv : String}
    (hk : themKeyFor p (k, c) = true)
    (hcur : dlookup st.outside_view p = some rv) :
    stepToThem st k c =
      .ok (match c.filter (fun s => s != rv) with
           | [] => st
           | s0 :: _ => ⟨st.relations, dset st.outside_view p s0⟩) := by
  rw [themKeyFor, Bool.and_eq_true, beq_iff_eq] at hk
  obtain ⟨hs, hsid⟩ := hk
  unfold stepToThem
  rw [if_pos hs, hsid]
  dsimp only
  cases c with
  | nil => simp
  | cons a l =>
      rw [hcur]
      cases hf : List.filter (fun s => s != rv) (a :: l) with
      | nil => simp [hf]
      | cons s0 t => simp [hf]

theorem stepToMe_ok_of_known {st : St12} {k : String} {c : List String}
    (hknown : strStartsWith k "to_me:" = true → c ≠ [] →
      hasKey st.relations (sidAfter "to_me:" k) = true) :
    ∃ st1, stepToMe st k c = .ok st1 := by
  by_cases hs : strStartsWith k "to_me:" = true
  · unfold stepToMe
    rw [if_pos hs]
    cases c with
    | nil => exact ⟨st, rfl⟩
    | cons a l =>
        have hk := hknown hs (by simp)
        rw [hasKey] at hk
        cases hl : dlookup st.relations (sidAfter "to_me:" k) with
        | none => rw [hl] at hk; simp at hk
        | some cur =>
            simp only [hl]
            cases hf : List.filter (fun s => s != cur) (a :: l) with
            | nil => exact ⟨st, by simp [hf]⟩
            | cons s0 t =>
                exact ⟨⟨dset st.relations (sidAfter "to_me:" k) s0,
                  st.outside_view⟩, by simp [hf]⟩
  · exact ⟨st, stepToMe_eq_of_not_starts hs⟩

theorem stepToThem_ok_of_known {st : St12} {k : String} {c : List String}
    (hknown : strStartsWith k "to_them:" = true → c ≠ [] →
      hasKey st.outside_view (sidAfter "to_them:" k) = true) :
    ∃ st1, stepToThem st k c = .ok st1 := by
  by_cases hs : strStartsWith k "to_them:" = true
  · unfold stepToThem
    rw [if_pos hs]
    cases c with
    | nil => exact ⟨st, rfl⟩
    | cons a l =>
        have hk := hknown hs (by simp)
        rw [hasKey] at hk
        cases hl : dlookup st.outside_view (sidAfter "to_them:" k) with
        | none => rw [hl] at hk; simp at hk
        | some cur =>
            simp only [hl]
            cases hf : List.filter (fun s => s != cur) (a :: l) with
            | nil => exact ⟨st, by simp [hf]⟩
            | cons s0 t =>
                exact ⟨⟨st.relations,
                  dset st.outside_view (sidAfter "to_them:" k) s0⟩, by simp [hf]⟩
  · exact ⟨st, stepToThem_eq_of_not_starts hs⟩

end Ex12

namespace Ex12

set_option maxHeartbeats 1000000 in
theorem download_states_cons (st : St12) (k : String) (c : List String)
    (rest : List (String × List String)) :
    download_states st ((k, c) :: rest) =
      match stepToMe st k c with
      | .error e => (.error e, st)
      | .ok st1 =>
        match stepToThem st1 k c with
        | .error e => (.error e, st1)
        | .ok st2 => download_states st2 rest := by
  rw [download_states]

theorem download12_rel_isSome (input : List (String × List String)) :
    ∀ (st : St12) (p : String), (dlookup st.relations p).isSome = true →
      (dlookup (download_states st input).2.relations p).isSome = true := by
  induction input with
  | nil => intro st p hp; exact hp
  | cons kv rest ih =>
      intro st p hp
      obtain ⟨k, c⟩ := kv
      cases hm : stepToMe st k c with
      | error e => rw [download_states_cons, hm]; exact hp
      | ok st1 =>
          cases ht : stepToThem st1 k c with
          | error e =>
              rw [download_states_cons, hm]
              dsimp only
              rw [ht]
              exact stepToMe_rel_isSome hm hp
          | ok st2 =>
              rw [download_states_cons, hm]
              dsimp only
              rw [ht]
              apply ih
              rw [stepToThem_relations ht]
              exact stepToMe_rel_isSome hm hp

theorem download12_ov_isSome (input : List (String × List String)) :
    ∀ (st : St12) (p : String), (dlookup st.outside_view p).isSome = true →
      (dlookup (download_states st input).2.outside_view p).isSome = true := by
  induction input with
  | nil => intro st p hp; exact hp
  | cons kv rest ih =>
      intro st p hp
      obtain ⟨k, c⟩ := kv
      cases hm : stepToMe st k c with
      | error e => rw [download_states_cons, hm]; exact hp
      | ok st1 =>
          have h1 : (dlookup st1.outside_view p).isSome = true := by
            rw [stepToMe_outside_view hm]; exact hp
          cases ht : stepToThem st1 k c with
          | error e =>
              rw [download_states_cons, hm]
              dsimp only
              rw [ht]
              exact h1
          | ok st2 =>
              rw [download_states_cons, hm]
              dsimp only
              rw [ht]
              exact ih st2 p (stepToThem_ov_isSome ht h1)

theorem download12_rel_untouched (input : List (String × List String)) :
    ∀ (st : St12) (p : String), input.filter (relKeyFor p) = [] →
      dlookup (download_states st input).2.relations p =
        dlookup st.relations p := by
  induction input with
  | nil => intro st p _; rfl
  | cons kv rest ih =>
      intro st p hf
      obtain ⟨k, c⟩ := kv
      rw [List.filter_eq_nil_iff] at hf
      have hk : relKeyFor p (k, c) = false := by
        have := hf (k, c) (by simp)
        simpa using this
      have hrest : rest.filter (relKeyFor p) = [] := by
        rw [List.filter_eq_nil_iff]
        intro a ha
        exact hf a (by simp [ha])
      cases hm : stepToMe st k c with
      | error e => rw [download_states_cons, hm]
      | ok st1 =>
          cases ht : stepToThem st1 k c with
          | error e =>
              rw [download_states_cons, hm]
              dsimp only
              rw [ht]
              exact stepToMe_rel_untouched hk hm
          | ok st2 =>
              rw [download_states_cons, hm]
              dsimp only
              rw [ht]
              rw [ih st2 p hrest, stepToThem_relations ht,
                stepToMe_rel_untouched hk hm]

theorem download12_ov_untouched (input : List (String × List String)) :
    ∀ (st : St12) (p : String), input.filter (themKeyFor p) = [] →
      dlookup (download_states st input).2.outside_view p =
        dlookup st.outside_view p := by
  induction input with
  | nil => intro st p _; rfl
  | cons kv rest ih =>
      intro st p hf
      obtain ⟨k, c⟩ := kv
      rw [List.filter_eq_nil_iff] at hf
      have hk : themKeyFor p (k, c) = false := by
        have := hf (k, c) (by simp)
        simpa using this
      have hrest : rest.filter (themKeyFor p) = [] := by
        rw [List.filter_eq_nil_iff]
        intro a ha
        exact hf a (by simp [ha])
      cases hm : stepToMe st k c with
      | error e => rw [download_states_cons, hm]
      | ok st1 =>
          cases ht : stepToThem st1 k c with
          | error e =>
              rw [download_states_cons, hm]
              dsimp only
              rw [ht]
              rw [stepToMe_outside_view hm]
          | ok st2 =>
              rw [download_states_cons, hm]
              dsimp only
              rw [ht]
              rw [ih st2 p hrest, stepToThem_ov_untouched hk ht,
                stepToMe_outside_view hm]

end Ex12

/-! ### Listening-flag lemmas for example_13 -/

namespace Ex13

theorem handler_register_contact_listening {st : St13} {msg : Val}
    {r : St13 × Bool} (h : handler_register_contact st msg = .ok r) :
    r.1.listening = st.listening := by
  cases msg with
  | null => exact absurd h (by simp [handler_register_contact])
  | str s => exact absurd h (by simp [handler_register_contact])
  | dict m =>
      unfold handler_register_contact at h
      dsimp only at h
      cases hm : dlookup m "message" with
      | none => rw [hm] at h; exact absurd h (by simp)
      | some mv =>
          rw [hm] at h
          dsimp only at h
          by_cases hv : mv = Val.str "Hello"
          · rw [if_pos hv] at h
            cases hf : dlookup m "from" with
            | none => rw [hf] at h; exact absurd h (by simp)
            | some fv =>
                rw [hf] at h
                simp only [Except.ok.injEq] at h
                rw [← h]
          · rw [if_neg hv] at h
            simp only [Except.ok.injEq] at h
            rw [← h]

theorem handler_register_ban_listening {st : St13} {msg : Val}
    {r : St13 × Bool} (h : handler_register_ban st msg = .ok r) :
    r.1.listening = st.listening := by
  cases msg with
  | null => exact absurd h (by simp [handler_register_ban])
  | str s => exact absurd h (by simp [handler_register_ban])
  | dict m =>
      unfold handler_register_ban at h
      dsimp only at h
      cases hm : dlookup m "message" with
      | none => rw [hm] at h; exact absurd h (by simp)
      | some mv =>
          rw [hm] at h
          dsimp only at h
          by_cases hv : mv = Val.str "I don\x27t like you"
          · rw [if_pos hv] at h
            cases hf : dlookup m "from" with
            | none => rw [hf] at h; exact absurd h (by simp)
            | some fv =>
                rw [hf] at h
                simp only [Except.ok.injEq] at h
                rw [← h]
          · rw [if_neg hv] at h
            simp only [Except.ok.injEq] at h
            rw [← h]

theorem handler_contact_friend_listening {st : St13} {msg : Val}
    {r : St13 × Bool} (h : handler_contact_friend st msg = .ok r) :
    r.1.listening = st.listening := by
  cases msg with
  | null => exact absurd h (by simp [handler_contact_friend])
  | str s => exact absurd h (by simp [handler_contact_friend])
  | dict m =>
      unfold handler_contact_friend at h
      dsimp only at h
      cases hm : dlookup m "message" with
      | none => rw [hm] at h; exact absurd h (by simp)
      | some mv =>
          rw [hm] at h
          dsimp only at h
          by_cases hv : mv = Val.str "I like you"
          · rw [if_pos hv] at h
            cases hf : dlookup m "from" with
            | none => rw [hf] at h; exact absurd h (by simp)
            | some fv =>
                rw [hf] at h
                simp only [Except.ok.injEq] at h
                rw [← h]
          · rw [if_neg hv] at h
            simp only [Except.ok.injEq] at h
            rw [← h]

theorem handler_neutral_good_listening {st : St13} {msg : Val}
    {r : St13 × Bool} (h : handler_neutral_good st msg = .ok r) :
    r.1.listening = st.listening := by
  cases msg with
  | null => exact absurd h (by simp [handler_neutral_good])
  | str s => exact absurd h (by simp [handler_neutral_good])
  | dict m =>
      unfold handler_neutral_good at h
      dsimp only at h
      cases hm : dlookup m "message" with
      | none => rw [hm] at h; exact absurd h (by simp)
      | some mv =>
          rw [hm] at h
          dsimp only at h
          by_cases hv : mv = Val.str "You are my contact"
          · rw [if_pos hv] at h
            cases hf : dlookup m "from" with
            | none => rw [hf] at h; exact absurd h (by simp)
            | some fv =>
                rw [hf] at h
                simp only [Except.ok.injEq] at h
                rw [← h]
          · rw [if_neg hv] at h
            simp only [Except.ok.injEq] at h
            rw [← h]

theorem handler_neutral_bad_listening {st : St13} {msg : Val}
    {r : St13 × Bool} (h : handler_neutral_bad st msg = .ok r) :
    r.1.listening = st.listening := by
  cases msg with
  | null => exact absurd h (by simp [handler_neutral_bad])
  | str s => exact absurd h (by simp [handler_neutral_bad])
  | dict m =>
      unfold handler_neutral_bad at h
      dsimp only at h
      cases hm : dlookup m "message" with
      | none => rw [hm] at h; exact absurd h (by simp)
      | some mv =>
          rw [hm] at h
          dsimp only at h
          by_cases hv : mv = Val.str "You are banned"
          · rw [if_pos hv] at h
            cases hf : dlookup m "from" with
            | none => rw [hf] at h; exact absurd h (by simp)
            | some fv =>
                rw [hf] at h
                simp only [Except.ok.injEq] at h
                rw [← h]
          · rw [if_neg hv] at h
            simp only [Except.ok.injEq] at h
            rw [← h]

theorem handler_good_very_good_listening {st : St13} {msg : Val}
    {r : St13 × Bool} (h : handler_good_very_good st msg = .ok r) :
    r.1.listening = st.listening := by
  cases msg with
  | null => exact absurd h (by simp [handler_good_very_good])
  | str s => exact absurd h (by simp [handler_good_very_good])
  | dict m =>
      unfold handler_good_very_good at h
      dsimp only at h
      cases hm : dlookup m "message" with
      | none => rw [hm] at h; exact absurd h (by simp)
      | some mv =>
          rw [hm] at h
          dsimp only at h
          by_cases hv : mv = Val.str "You are my friend"
          · rw [if_pos hv] at h
            cases hf : dlookup m "from" with
            | none => rw [hf] at h; exact absurd h (by simp)
            | some fv =>
                rw [hf] at h
                simp only [Except.ok.injEq] at h
                rw [← h]
          · rw [if_neg hv] at h
            simp only [Except.ok.injEq] at h
            rw [← h]

theorem upload_states_listening (st : St13) (msg : Val) :
    (upload_states st msg).2.listening = st.listening := by
  unfold upload_states
  dsimp only
  repeat' split
  all_goals rfl

theorem download_states_listening (st : St13) (inp : DInput) :
    (download_states st inp).2.listening = st.listening := by
  unfold download_states
  dsimp only
  repeat' split
  all_goals rfl

theorem on_travel_listening (st : St13) (msg : Val) :
    (on_travel st msg).1.listening = false ∨
      (on_travel st msg).1.listening = st.listening := by
  unfold on_travel
  split
  · exact Or.inl rfl
  · exact Or.inr rfl

theorem step_listening {s s' : St13} (h : Step s s') :
    s.listening = false → s'.listening = false := by
  intro hl
  cases h with
  | hook => exact hl
  | travel msg =>
      rcases on_travel_listening s msg with h' | h'
      · exact h'
      · rw [h']; exact hl
  | regContact msg r hr =>
      rw [handler_register_contact_listening hr]; exact hl
  | regBan msg r hr =>
      rw [handler_register_ban_listening hr]; exact hl
  | contactFriend msg r hr =>
      rw [handler_contact_friend_listening hr]; exact hl
  | neutralGood msg r hr =>
      rw [handler_neutral_good_listening hr]; exact hl
  | neutralBad msg r hr =>
      rw [handler_neutral_bad_listening hr]; exact hl
  | goodVeryGood msg r hr =>
      rw [handler_good_very_good_listening hr]; exact hl
  | upload msg => rw [upload_states_listening]; exact hl
  | download input => rw [download_states_listening]; exact hl
  | reputation =>
      unfold send_on_clock_reputation
      split
      · exact hl
      · exact hl
  | drainContact emitOk => exact hl
  | drainBan emitOk => exact hl
  | drainFriend emitOk => exact hl

theorem reach_listening {s s' : St13} (h : Reach s s') :
    s.listening = false → s'.listening = false := by
  induction h with
  | refl => exact fun hl => hl
  | tail hpre hstep ih => exact fun hl => step_listening hstep (ih hl)

end Ex13

/-! ### Claim theorems -/

/-- **C1, counterexample**: the claim quantifies over all four one-shot
outbox lists including `to_them_list`, but the periodic `reputation` send
handler of example_12 does not clear `to_them_list`: draining a one-entry
list emits the entry's payload yet leaves the list equal to its old value,
not empty. -/
theorem c1_reputation_outbox_not_cleared :
    (Ex12.send_on_clock_reputation [(Val.str "X", "good")]).2
        = [(Val.str "X", "good")]
    ∧ (Ex12.send_on_clock_reputation [(Val.str "X", "good")]).1
        = [[("to", Val.str "X"), ("message", Val.str "I like you")]]
    ∧ [(Val.str "X", "good")] ≠ ([] : List (Val × String)) := by
  exact ⟨rfl, rfl, by simp⟩

/-- **C1, amended**: the gated one-shot outboxes of example_12
(`contact_list`, `ban_list`, `friend_list`) are drained exactly once per
send cycle — the handler emits exactly one payload per entry on success,
and the `try/finally` leaves the list empty even when the body raises.
The periodic `reputation` sender emits exactly one payload per
`to_them_list` entry but leaves that list unchanged (it is never
cleared). -/
theorem c1_outbox_drain_amended (emitOk : Bool) (cl bl fl : List Val)
    (tl : List (Val × String)) :
    ((Ex12.send_from_register_to_contact emitOk cl).2 = []
      ∧ Ex12.send_from_register_to_contact true cl
          = (.ok (cl.map fun contact_id =>
              [("to", contact_id), ("message", Val.str "You are my contact")]), [])
      ∧ (cl.map fun contact_id =>
          [("to", contact_id), ("message", Val.str "You are my contact")]).length
          = cl.length
      ∧ Ex12.send_from_register_to_contact false cl = (.error .sendError, []))
    ∧ ((Ex12.send_from_register_to_ban emitOk bl).2 = []
      ∧ Ex12.send_from_register_to_ban true bl
          = (.ok (bl.map fun banned_id =>
              [("to", banned_id), ("message", Val.str "You are banned")]), [])
      ∧ (bl.map fun banned_id =>
          [("to", banned_id), ("message", Val.str "You are banned")]).length
          = bl.length
      ∧ Ex12.send_from_register_to_ban false bl = (.error .sendError, []))
    ∧ ((Ex12.send_from_contact_to_friend emitOk fl).2 = []
      ∧ Ex12.send_from_contact_to_friend true fl
          = (.ok (fl.map fun friend_id =>
              [("to", friend_id), ("message", Val.str "You are my friend")]), [])
      ∧ (fl.map fun friend_id =>
          [("to", friend_id), ("message", Val.str "You are my friend")]).length
          = fl.length
      ∧ Ex12.send_from_contact_to_friend false fl = (.error .sendError, []))
    ∧ ((Ex12.send_on_clock_reputation tl).1.length = tl.length
      ∧ (Ex12.send_on_clock_reputation tl).2 = tl) := by
  refine ⟨⟨rfl, rfl, by simp, rfl⟩, ⟨rfl, rfl, by simp, rfl⟩,
    ⟨rfl, rfl, by simp, rfl⟩, ?_, rfl⟩
  simp [Ex12.send_on_clock_reputation]

/-- **C3**: a validated-shape envelope whose content is a dict with a `to`
value that is neither `None` nor the agent's own id is rejected by the
priority-0 `validate` hook, so the hook chain drops it before dispatch:
the relation maps are unchanged and no route handler runs. -/
theorem c3_misaddressed_dropped (agentId : String) (st : Ex12.St12)
    (env c : PyDict) (tv : Val)
    (henv : dlookup env "content" = some (.dict c))
    (hto : dlookup c "to" = some tv)
    (hnull : tv ≠ Val.null) (hid : tv ≠ Val.str agentId) :
    validate agentId (.dict env) = none
    ∧ Ex12.processInbound agentId st (.dict env) = (st, false) := by
  have hv : validate agentId (.dict env) = none := by
    unfold validate
    dsimp only
    by_cases hk : (hasKey env "remote_addr" && hasKey env "content") = true
    · rw [if_pos hk, henv]
      dsimp only
      rw [hto]
      dsimp only [Option.getD]
      rw [if_neg ?hor]
      case hor =>
        rintro (h | h)
        · exact hnull h
        · exact hid h
    · rw [if_neg hk]
  refine ⟨hv, ?_⟩
  unfold Ex12.processInbound
  rw [hv]

/-- **C3, witness**. -/
theorem c3_witness :
    validate "A" (.dict [("remote_addr", .str "1.2.3.4"),
        ("content", .dict [("to", .str "B"), ("from", .str "C")])]) = none
    ∧ Ex12.processInbound "A" ⟨[], []⟩
        (.dict [("remote_addr", .str "1.2.3.4"),
          ("content", .dict [("to", .str "B"), ("from", .str "C")])])
        = (⟨[], []⟩, false) :=
  c3_misaddressed_dropped "A" ⟨[], []⟩
    [("remote_addr", .str "1.2.3.4"),
     ("content", .dict [("to", .str "B"), ("from", .str "C")])]
    [("to", .str "B"), ("from", .str "C")] (Val.str "B")
    (by decide) (by decide) (by decide) (by decide)

/-- **C9**: a content dict with no `"to"` key at all is dropped by
`validate` — `content.get("to", "")` defaults to `""`, which is neither
`None` nor the (non-empty) agent id — while an explicit `"to": None` with
a present `"from"` passes, i.e. only explicit `None` is broadcast. -/
theorem c9_missing_to_dropped (agentId : String) (env c : PyDict)
    (henv : dlookup env "content" = some (.dict c))
    (hto : dlookup c "to" = none) (hid : agentId ≠ "") :
    validate agentId (.dict env) = none
    ∧ (∀ env2 c2 : PyDict, hasKey env2 "remote_addr" = true →
        dlookup env2 "content" = some (.dict c2) →
        dlookup c2 "to" = some Val.null → hasKey c2 "from" = true →
        validate agentId (.dict env2) = some (.dict c2)) := by
  constructor
  · unfold validate
    dsimp only
    by_cases hk : (hasKey env "remote_addr" && hasKey env "content") = true
    · rw [if_pos hk, henv]
      dsimp only
      rw [hto]
      dsimp only [Option.getD]
      rw [if_neg ?hor]
      case hor =>
        rintro (h | h)
        · exact Val.noConfusion h
        · rw [Val.str.injEq] at h
          exact hid h.symm
    · rw [if_neg hk]
  · intro env2 c2 hra hc2 hto2 hfrom2
    unfold validate
    dsimp only
    have hck : hasKey env2 "content" = true := by
      unfold hasKey
      rw [hc2]
      rfl
    rw [if_pos (by rw [hra, hck]; rfl), hc2]
    dsimp only
    rw [hto2]
    dsimp only [Option.getD]
    rw [if_pos (Or.inl rfl), if_pos hfrom2]

/-- **C9, witness**. -/
theorem c9_witness :
    validate "ChangeMe_Agent_7" (.dict [("remote_addr", .str "1.2.3.4"),
        ("content", .dict [("from", .str "B")])]) = none
    ∧ validate "ChangeMe_Agent_7" (.dict [("remote_addr", .str "1.2.3.4"),
        ("content", .dict [("to", .null), ("from", .str "B")])])
        = some (.dict [("to", .null), ("from", .str "B")]) := by
  have h := c9_missing_to_dropped "ChangeMe_Agent_7"
    [("remote_addr", .str "1.2.3.4"), ("content", .dict [("from", .str "B")])]
    [("from", .str "B")] (by decide) (by decide) (by decide)
  exact ⟨h.1, h.2 [("remote_addr", .str "1.2.3.4"),
    ("content", .dict [("to", .null), ("from", .str "B")])]
    [("to", .null), ("from", .str "B")] (by decide) (by decide) (by decide)
    (by decide)⟩

/-- **C5**: `upload_states` is idempotent — running it a second time on the
state it produced, with the same message and no intervening mutation,
returns the same snapshot (and the same error, on the error paths) and
leaves the relation maps exactly as after the first call.  Stated for the
dual-namespace variant of example_12 and the per-sender variant of
example_10. -/
theorem c5_upload_idempotent (st : Ex12.St12) (rel : List (String × String))
    (msg : Val) :
    Ex12.upload_states (Ex12.upload_states st msg).2 msg
        = Ex12.upload_states st msg
    ∧ Ex10.upload_states (Ex10.upload_states rel msg).2 msg
        = Ex10.upload_states rel msg := by
  constructor
  · cases msg with
    | null => rfl
    | str s => rfl
    | dict m =>
        by_cases hf : ((dlookup m "from").getD Val.null).isFalsy = true
        · have h1 : Ex12.upload_states st (.dict m) = (.ok none, st) := by
            unfold Ex12.upload_states
            dsimp only
            rw [if_pos hf]
          rw [h1]
          exact h1
        · cases hsv : (dlookup m "from").getD Val.null with
          | null => rw [hsv] at hf; simp [Val.isFalsy] at hf
          | dict d =>
              have h1 : Ex12.upload_states st (.dict m)
                  = (.error .typeError, st) := by
                unfold Ex12.upload_states
                dsimp only
                rw [hsv] at hf
                rw [hsv, if_neg hf]
              rw [h1]
              exact h1
          | str sid =>
              rw [hsv] at hf
              have hr : dlookup (setdefault st.relations sid "register") sid
                  = some ((dlookup st.relations sid).getD "register") := by
                rw [dlookup_setdefault]; simp
              have ho : dlookup (setdefault st.outside_view sid "neutral") sid
                  = some ((dlookup st.outside_view sid).getD "neutral") := by
                rw [dlookup_setdefault]; simp
              have h1 : Ex12.upload_states st (.dict m)
                  = (.ok (some
                      [("to_me:" ++ sid,
                        (dlookup st.relations sid).getD "register"),
                       ("to_them:" ++ sid,
                        (dlookup st.outside_view sid).getD "neutral")]),
                     ⟨setdefault st.relations sid "register",
                      setdefault st.outside_view sid "neutral"⟩) := by
                unfold Ex12.upload_states
                dsimp only
                rw [hsv, if_neg hf]
                dsimp only
                rw [hr, ho]
              have h2 : Ex12.upload_states
                  (⟨setdefault st.relations sid "register",
                    setdefault st.outside_view sid "neutral"⟩ : Ex12.St12)
                  (.dict m)
                  = (.ok (some
                      [("to_me:" ++ sid,
                        (dlookup st.relations sid).getD "register"),
                       ("to_them:" ++ sid,
                        (dlookup st.outside_view sid).getD "neutral")]),
                     ⟨setdefault st.relations sid "register",
                      setdefault st.outside_view sid "neutral"⟩) := by
                unfold Ex12.upload_states
                dsimp only
                rw [hsv, if_neg hf]
                dsimp only
                rw [setdefault_setdefault, setdefault_setdefault, hr, ho]
              rw [h1]
              exact h2
  · cases msg with
    | null => rfl
    | str s => rfl
    | dict m =>
        by_cases hf : ((dlookup m "from").getD Val.null).isFalsy = true
        · have h1 : Ex10.upload_states rel (.dict m) = (.ok none, rel) := by
            unfold Ex10.upload_states
            dsimp only
            rw [if_pos hf]
          rw [h1]
          exact h1
        · cases hsv : (dlookup m "from").getD Val.null with
          | null => rw [hsv] at hf; simp [Val.isFalsy] at hf
          | dict d =>
              have h1 : Ex10.upload_states rel (.dict m)
                  = (.error .typeError, rel) := by
                unfold Ex10.upload_states
                dsimp only
                rw [hsv] at hf
                rw [hsv, if_neg hf]
              rw [h1]
              exact h1
          | str sid =>
              rw [hsv] at hf
              have hr : dlookup (setdefault rel sid "register") sid
                  = some ((dlookup rel sid).getD "register") := by
                rw [dlookup_setdefault]; simp
              have h1 : Ex10.upload_states rel (.dict m)
                  = (.ok (some [(sid, (dlookup rel sid).getD "register")]),
                     setdefault rel sid "register") := by
                unfold Ex10.upload_states
                dsimp only
                rw [hsv, if_neg hf]
                dsimp only
                rw [hr]
              have h2 : Ex10.upload_states (setdefault rel sid "register")
                  (.dict m)
                  = (.ok (some [(sid, (dlookup rel sid).getD "register")]),
                     setdefault rel sid "register") := by
                unfold Ex10.upload_states
                dsimp only
                rw [hsv, if_neg hf]
                dsimp only
                rw [setdefault_setdefault, hr]
              rw [h1]
              exact h2

/-- Example_10's `download_states` never removes a peer entry: presence in
`relations` is preserved through the loop, also on the error paths. -/
theorem download10_isSome (cands : List (String × List String)) :
    ∀ (rel : List (String × String)) (p : String),
      (dlookup rel p).isSome = true →
      (dlookup (Ex10.download_states rel cands).2 p).isSome = true := by
  induction cands with
  | nil => intro rel p hp; exact hp
  | cons kv rest ih =>
      intro rel p hp
      obtain ⟨sid, cs⟩ := kv
      cases cs with
      | nil => exact ih rel p hp
      | cons a l =>
          cases hl : dlookup rel sid with
          | none =>
              unfold Ex10.download_states
              dsimp only
              rw [hl]
              exact hp
          | some cur =>
              unfold Ex10.download_states
              dsimp only
              rw [hl]
              dsimp only
              cases hfil : List.filter (fun s => s != cur) (a :: l) with
              | nil => exact ih rel p hp
              | cons s0 t =>
                  apply ih
                  rw [dlookup_dset]
                  split
                  · simp
                  · exact hp

/-- **C2**: monotonic presence with default initialization.  A first
message from a fresh peer `X` creates `relations[X] = "register"` (and
`outside_view[X] = "neutral"` in example_12's dual-namespace variant) and
the returned snapshot carries exactly that entry; `upload_states` never
overwrites the entry of an already-known peer (it uses `setdefault`), and
neither `upload_states` nor `download_states` ever removes a peer entry. -/
theorem c2_relation_map_monotonic_presence
    (rel : List (String × String)) (st12 : Ex12.St12) (m : PyDict)
    (X p v : String) (cands : List (String × List String)) :
    (dlookup m "from" = some (.str X) → X ≠ "" → dlookup rel X = none →
      Ex10.upload_states rel (.dict m)
        = (.ok (some [(X, "register")]), rel ++ [(X, "register")]))
    ∧ (dlookup m "from" = some (.str X) → X ≠ "" →
       dlookup st12.relations X = none → dlookup st12.outside_view X = none →
      Ex12.upload_states st12 (.dict m)
        = (.ok (some [("to_me:" ++ X, "register"),
                      ("to_them:" ++ X, "neutral")]),
           ⟨st12.relations ++ [(X, "register")],
            st12.outside_view ++ [(X, "neutral")]⟩))
    ∧ (∀ msg : Val, dlookup rel p = some v →
        dlookup (Ex10.upload_states rel msg).2 p = some v)
    ∧ (∀ msg : Val, dlookup st12.relations p = some v →
        dlookup (Ex12.upload_states st12 msg).2.relations p = some v)
    ∧ (∀ msg : Val, dlookup st12.outside_view p = some v →
        dlookup (Ex12.upload_states st12 msg).2.outside_view p = some v)
    ∧ ((dlookup rel p).isSome = true →
        (dlookup (Ex10.download_states rel cands).2 p).isSome = true)
    ∧ ((dlookup st12.relations p).isSome = true →
        (dlookup (Ex12.download_states st12 cands).2.relations p).isSome = true)
    ∧ ((dlookup st12.outside_view p).isSome = true →
        (dlookup (Ex12.download_states st12 cands).2.outside_view p).isSome
          = true) := by
  refine ⟨?_, ?_, ?_, ?_, ?_, ?_, ?_, ?_⟩
  · intro hfrom hX hfresh
    have hfalse : (Val.str X).isFalsy = false := by
      simp [Val.isFalsy, hX]
    have hset : setdefault rel X "register" = rel ++ [(X, "register")] := by
      unfold setdefault hasKey
      rw [hfresh]
      rfl
    unfold Ex10.upload_states
    dsimp only
    rw [hfrom]
    dsimp only [Option.getD]
    rw [if_neg (by rw [hfalse]; simp)]
    rw [hset, dlookup_append, hfresh]
    dsimp only [dlookup]
    rw [if_pos rfl]
  · intro hfrom hX hfresh1 hfresh2
    have hfalse : (Val.str X).isFalsy = false := by
      simp [Val.isFalsy, hX]
    have hset1 : setdefault st12.relations X "register"
        = st12.relations ++ [(X, "register")] := by
      unfold setdefault hasKey
      rw [hfresh1]
      rfl
    have hset2 : setdefault st12.outside_view X "neutral"
        = st12.outside_view ++ [(X, "neutral")] := by
      unfold setdefault hasKey
      rw [hfresh2]
      rfl
    unfold Ex12.upload_states
    dsimp only
    rw [hfrom]
    dsimp only [Option.getD]
    rw [if_neg (by rw [hfalse]; simp)]
    rw [hset1, hset2, dlookup_append, dlookup_append, hfresh1, hfresh2]
    dsimp only [dlookup]
    rw [if_pos rfl, if_pos rfl]
  · intro msg hp
    cases msg with
    | null => exact hp
    | str s => exact hp
    | dict mm =>
        by_cases hf : ((dlookup mm "from").getD Val.null).isFalsy = true
        · unfold Ex10.upload_states
          dsimp only
          rw [if_pos hf]
          exact hp
        · cases hsv : (dlookup mm "from").getD Val.null with
          | null => rw [hsv] at hf; simp [Val.isFalsy] at hf
          | dict d =>
              unfold Ex10.upload_states
              dsimp only
              rw [hsv] at hf
              rw [hsv, if_neg hf]
              exact hp
          | str sid =>
              rw [hsv] at hf
              unfold Ex10.upload_states
              dsimp only
              rw [hsv, if_neg hf]
              dsimp only
              have hset := dlookup_setdefault_of_some sid "register" hp
              cases hl : dlookup (setdefault rel sid "register") sid with
              | none => dsimp only; exact hset
              | some w => dsimp only; exact hset
  · intro msg hp
    cases msg with
    | null => exact hp
    | str s => exact hp
    | dict mm =>
        by_cases hf : ((dlookup mm "from").getD Val.null).isFalsy = true
        · unfold Ex12.upload_states
          dsimp only
          rw [if_pos hf]
          exact hp
        · cases hsv : (dlookup mm "from").getD Val.null with
          | null => rw [hsv] at hf; simp [Val.isFalsy] at hf
          | dict d =>
              unfold Ex12.upload_states
              dsimp only
              rw [hsv] at hf
              rw [hsv, if_neg hf]
              exact hp
          | str sid =>
              rw [hsv] at hf
              unfold Ex12.upload_states
              dsimp only
              rw [hsv, if_neg hf]
              dsimp only
              have hset := dlookup_setdefault_of_some sid "register" hp
              cases h1 : dlookup (setdefault st12.relations sid "register") sid
                with
              | none =>
                  cases h2 : dlookup (setdefault st12.outside_view sid "neutral")
                    sid with
                  | none => dsimp only; exact hset
                  | some w2 => dsimp only; exact hset
              | some w1 =>
                  cases h2 : dlookup (setdefault st12.outside_view sid "neutral")
                    sid with
                  | none => dsimp only; exact hset
                  | some w2 => dsimp only; exact hset
  · intro msg hp
    cases msg with
    | null => exact hp
    | str s => exact hp
    | dict mm =>
        by_cases hf : ((dlookup mm "from").getD Val.null).isFalsy = true
        · unfold Ex12.upload_states
          dsimp only
          rw [if_pos hf]
          exact hp
        · cases hsv : (dlookup mm "from").getD Val.null with
          | null => rw [hsv] at hf; simp [Val.isFalsy] at hf
          | dict d =>
              unfold Ex12.upload_states
              dsimp only
              rw [hsv] at hf
              rw [hsv, if_neg hf]
              exact hp
          | str sid =>
              rw [hsv] at hf
              unfold Ex12.upload_states
              dsimp only
              rw [hsv, if_neg hf]
              dsimp only
              have hset := dlookup_setdefault_of_some sid "neutral" hp
              cases h1 : dlookup (setdefault st12.relations sid "register") sid
                with
              | none =>
                  cases h2 : dlookup (setdefault st12.outside_view sid "neutral")
                    sid with
                  | none => dsimp only; exact hset
                  | some w2 => dsimp only; exact hset
              | some w1 =>
                  cases h2 : dlookup (setdefault st12.outside_view sid "neutral")
                    sid with
                  | none => dsimp only; exact hset
                  | some w2 => dsimp only; exact hset
  · exact download10_isSome cands rel p
  · exact Ex12.download12_rel_isSome cands st12 p
  · exact Ex12.download12_ov_isSome cands st12 p

/-- **C2, witness**. -/
theorem c2_witness :
    Ex10.upload_states [] (.dict [("to", .null), ("from", .str "X")])
        = (.ok (some [("X", "register")]), [("X", "register")])
    ∧ Ex12.upload_states ⟨[], []⟩ (.dict [("to", .null), ("from", .str "X")])
        = (.ok (some [("to_me:X", "register"), ("to_them:X", "neutral")]),
           ⟨[("X", "register")], [("X", "neutral")]⟩) := by
  have h := c2_relation_map_monotonic_presence [] ⟨[], []⟩
    [("to", .null), ("from", .str "X")] "X" "p" "v" []
  exact ⟨h.1 (by decide) (by decide) (by decide),
    h.2.1 (by decide) (by decide) (by decide) (by decide)⟩

/-- **C8, counterexample**: the claim quantifies over every validated
content dict, but `validate` only checks that `"from"` is *present*, not
that it is a string.  The content `{"to": None, "from": None}` is
validated, yet `check_sender` raises `TypeError` on the slice
`content.get("from","")[:len(s)]` — it neither returns the content nor
emits the diagnostic log entry the claim promises. -/
theorem c8_nonstring_sender_raises :
    validate "ChangeMe_Agent_10_1" (.dict [("remote_addr", .str "1.2.3.4"),
        ("content", .dict [("to", .null), ("from", .null)])])
      = some (.dict [("to", .null), ("from", .null)])
    ∧ Ex10.check_sender (.dict [("to", .null), ("from", .null)])
      = (.error .typeError, []) := by
  exact ⟨by decide, by decide⟩

/-- **C8, amended**: for every content dict whose `"from"` value *is a
string* `f`, `check_sender` returns the content iff `f` passes the prefix
test against the allowlist; otherwise it returns nothing and logs exactly
one diagnostic line that contains the rejected sender `f` verbatim.
(For a non-string `"from"` the hook instead raises `TypeError`, with no
log — see the counterexample.) -/
theorem c8_allowlist_amended (c : PyDict) (f : String)
    (hf : dlookup c "from" = some (.str f)) :
    (Ex10.allowlist.any (fun s => sliceEq f s) = true →
        Ex10.check_sender (.dict c) = (.ok (some (.dict c)), []))
    ∧ (Ex10.allowlist.any (fun s => sliceEq f s) = false →
        Ex10.check_sender (.dict c) = (.ok none, [Ex10.rejectLog c])
        ∧ Ex10.rejectLog c = "[hook:recv] reject \x27from\x27:" ++ f
            ++ " | \x27type\x27:" ++ pyStr ((dlookup c "type").getD .null)) := by
  constructor
  · intro hany
    unfold Ex10.check_sender
    dsimp only
    rw [hf]
    dsimp only [Option.getD]
    rw [if_pos hany]
  · intro hany
    constructor
    · unfold Ex10.check_sender
      dsimp only
      rw [hf]
      dsimp only [Option.getD]
      rw [if_neg (by rw [hany]; simp)]
    · unfold Ex10.rejectLog
      rw [hf]
      rfl

/-- **C8, witness**. -/
theorem c8_witness :
    Ex10.check_sender (.dict [("from", .str "ChangeMe_Agent_10_5")])
      = (.ok (some (.dict [("from", .str "ChangeMe_Agent_10_5")])), [])
    ∧ Ex10.check_sender (.dict [("from", .str "Eve")])
      = (.ok none, [Ex10.rejectLog [("from", .str "Eve")]]) := by
  have h1 := c8_allowlist_amended [("from", .str "ChangeMe_Agent_10_5")]
    "ChangeMe_Agent_10_5" (by decide)
  have h2 := c8_allowlist_amended [("from", .str "Eve")] "Eve" (by decide)
  exact ⟨h1.1 (by decide), (h2.2 (by decide)).1⟩

/-- **C6**: mode-gate monotonicity.  Over the step relation covering every
hook, route handler, state-sync callback and sender of example_13, once
`listening` is `false` it stays `false` along every reachable execution;
and with `listening = false` a `"/travel"` envelope no longer passes
`validate`'s control-token special case — it falls through to the
`isinstance(content, dict)` check and is dropped. -/
theorem c6_mode_gate_monotonic (s s' : Ex13.St13) (h : Ex13.Reach s s')
    (hl : s.listening = false) :
    s'.listening = false
    ∧ (∀ (agentId : String) (env : PyDict),
        dlookup env "content" = some (Val.str "/travel") →
        Ex13.validate s'.listening agentId (.dict env) = none) := by
  have hmono := Ex13.reach_listening h hl
  refine ⟨hmono, ?_⟩
  intro agentId env henv
  rw [hmono]
  unfold Ex13.validate
  dsimp only
  by_cases hk : (hasKey env "remote_addr" && hasKey env "content") = true
  · rw [if_pos hk, henv]
    dsimp only
    rw [if_neg ?hcond]
    case hcond =>
      rintro ⟨h1, h2⟩
      simp at h2
  · rw [if_neg hk]

/-- **C6, witness**. -/
theorem c6_witness :
    (⟨false, [], [], [], [], [], []⟩ : Ex13.St13).listening = false
    ∧ Ex13.validate false "A" (.dict [("remote_addr", .str "1.2.3.4"),
        ("content", .str "/travel")]) = none := by
  have h := c6_mode_gate_monotonic ⟨false, [], [], [], [], [], []⟩
    ⟨false, [], [], [], [], [], []⟩ Relation.ReflTransGen.refl rfl
  exact ⟨h.1, h.2 "A"
    [("remote_addr", .str "1.2.3.4"), ("content", .str "/travel")] (by decide)⟩

/-- When every recognized key of the pushed mapping names a peer already
present in the matching map, example_12's `download_states` completes
without raising. -/
theorem download12_ok (input : List (String × List String)) :
    ∀ st : Ex12.St12, Ex12.PeersKnown st input →
      (Ex12.download_states st input).1 = .ok () := by
  induction input with
  | nil => intro st _; rfl
  | cons kv rest ih =>
      intro st hkn
      obtain ⟨k, c⟩ := kv
      have hhead := hkn (k, c) (by simp)
      obtain ⟨st1, hm⟩ := Ex12.stepToMe_ok_of_known
        (fun hs hc => (hhead hc).1 hs)
      have hkn2 : strStartsWith k "to_them:" = true → c ≠ [] →
          hasKey st1.outside_view (Ex12.sidAfter "to_them:" k) = true := by
        intro hs hc
        rw [Ex12.stepToMe_outside_view hm]
        exact (hhead hc).2 hs
      obtain ⟨st2, ht⟩ := Ex12.stepToThem_ok_of_known hkn2
      rw [Ex12.download_states_cons, hm]
      dsimp only
      rw [ht]
      apply ih st2
      intro kv2 hmem hne
      constructor
      · intro hs
        have h0 := ((hkn kv2 (by simp [hmem])) hne).1 hs
        unfold hasKey at h0 ⊢
        rw [Ex12.stepToThem_relations ht]
        exact Ex12.stepToMe_rel_isSome hm h0
      · intro hs
        have h0 := ((hkn kv2 (by simp [hmem])) hne).2 hs
        unfold hasKey at h0 ⊢
        apply Ex12.stepToThem_ov_isSome ht
        rw [Ex12.stepToMe_outside_view hm]
        exact h0

/-- While not listening, example_13's `download_states` result is the
example_12 loop run on the two maps over the normalized input. -/
theorem download13_fst (st : Ex13.St13) (inp : Ex13.DInput)
    (hl : st.listening = false) :
    (Ex13.download_states st inp).1
      = (Ex12.download_states ⟨st.relations, st.outside_view⟩
          (Ex13.normalizeInput inp)).1 := by
  unfold Ex13.download_states
  rw [if_neg (by rw [hl]; simp)]

/-- **C7, counterexample**: the claim says `download_states` completes on
*every* keyed mapping, but a keyed input whose `to_me:` key names a peer
absent from `relations` raises `KeyError` (the non-listening example_13
agent, empty maps, input `{"to_me:X": ["contact"]}`). -/
theorem c7_keyed_input_keyerror :
    (Ex13.download_states ⟨false, [], [], [], [], [], []⟩
        (.keyed [("to_me:X", ["contact"])])).1
      = .error (.keyError "X") := by decide

/-- **C7, amended**: example_13's `download_states` completes without
raising on every flat-list input (the list is normalized under the key
`"default"`, which matches neither namespace prefix, so no map is ever
indexed), and on every keyed mapping whose recognized keys name peers
already present in the matching map. -/
theorem c7_download_shape_tolerant_amended (st : Ex13.St13) (l : List String)
    (m : List (String × List String))
    (hm : Ex12.PeersKnown ⟨st.relations, st.outside_view⟩ m) :
    (Ex13.download_states st (.flat l)).1 = .ok ()
    ∧ (Ex13.download_states st (.keyed m)).1 = .ok () := by
  by_cases hl : st.listening = true
  · constructor <;>
      (unfold Ex13.download_states; rw [if_pos hl])
  · rw [Bool.not_eq_true] at hl
    constructor
    · rw [download13_fst st _ hl]
      apply download12_ok
      intro kv hmem hne
      obtain ⟨kk, kc⟩ := kv
      unfold Ex13.normalizeInput at hmem
      simp at hmem
      obtain ⟨h1, h2⟩ := hmem
      subst h1
      dsimp only
      exact ⟨fun hs => absurd hs (by decide), fun hs => absurd hs (by decide)⟩
    · rw [download13_fst st _ hl]
      exact download12_ok m _ hm

/-- **C7, witness**. -/
theorem c7_witness :
    (Ex13.download_states ⟨false, [("X", "register")], [], [], [], [], []⟩
        (.flat ["contact"])).1 = .ok ()
    ∧ (Ex13.download_states ⟨false, [("X", "register")], [], [], [], [], []⟩
        (.keyed [("to_me:X", ["contact"])])).1 = .ok () := by
  have h := c7_download_shape_tolerant_amended
    ⟨false, [("X", "register")], [], [], [], [], []⟩ ["contact"]
    [("to_me:X", ["contact"])] (by unfold Ex12.PeersKnown; decide)
  exact h

/-- **C10**: the per-peer `download_states` of example_12 indexes the local
maps without a default, so it is total only under the precondition that
every recognized key names a known peer; on the input
`{"to_me:X": ["contact"]}` with empty maps it raises `KeyError "X"`,
whereas example_14's variant uses `relations.get(sender_id, "")` and
completes on the same input (inserting the new peer). -/
theorem c10_download_unknown_peer :
    (∀ (st : Ex12.St12) (m : List (String × List String)),
        Ex12.PeersKnown st m → (Ex12.download_states st m).1 = .ok ())
    ∧ Ex12.download_states ⟨[], []⟩ [("to_me:X", ["contact"])]
        = (.error (.keyError "X"), ⟨[], []⟩)
    ∧ Ex14.download_states false ⟨[], []⟩ (.keyed [("to_me:X", ["contact"])])
        = ⟨[("X", "contact")], []⟩ := by
  exact ⟨fun st m h => download12_ok m st h, by decide, by decide⟩

/-- **C10, witness**. -/
theorem c10_witness :
    (Ex12.download_states ⟨[("X", "register")], []⟩
        [("to_me:X", ["contact"])]).1 = .ok () :=
  c10_download_unknown_peer.1 ⟨[("X", "register")], []⟩
    [("to_me:X", ["contact"])] (by unfold Ex12.PeersKnown; decide)

/-- Adoption at a `to_me:` key: when exactly one key of the input resolves
to peer `p` in `relations` (with candidate list `cs`), and the loop
completes, `relations[p]` ends as the stored value `rv` if no candidate
differs from it, and as the first differing candidate otherwise. -/
theorem download12_rel_adopt (input : List (String × List String)) :
    ∀ (st : Ex12.St12) (p rv : String) (cs : List String),
      dlookup st.relations p = some rv →
      (input.filter (Ex12.relKeyFor p)).map Prod.snd = [cs] →
      (Ex12.download_states st input).1 = .ok () →
      dlookup (Ex12.download_states st input).2.relations p
        = some (match cs.filter (fun s => s != rv) with
                | [] => rv
                | s0 :: _ => s0) := by
  induction input with
  | nil => intro st p rv cs hcur hkeys hok; simp at hkeys
  | cons kv rest ih =>
      intro st p rv cs hcur hkeys hok
      obtain ⟨k, c⟩ := kv
      by_cases hk : Ex12.relKeyFor p (k, c) = true
      · rw [List.filter_cons_of_pos hk] at hkeys
        simp only [List.map_cons, List.cons.injEq] at hkeys
        obtain ⟨hc, hrest0⟩ := hkeys
        have hrestnil : rest.filter (Ex12.relKeyFor p) = [] := by
          cases hre : rest.filter (Ex12.relKeyFor p) with
          | nil => rfl
          | cons x xs => rw [hre] at hrest0; simp at hrest0
        subst hc
        have hm := Ex12.stepToMe_rel_touched hk hcur
        cases hfil : c.filter (fun s => s != rv) with
        | nil =>
            rw [hfil] at hm
            rw [Ex12.download_states_cons, hm] at hok ⊢
            dsimp only at hok ⊢
            cases ht : Ex12.stepToThem st k c with
            | error e =>
                rw [ht] at hok
                simp at hok
            | ok stB =>
                rw [Ex12.download12_rel_untouched rest stB p hrestnil,
                  Ex12.stepToThem_relations ht, hcur]
        | cons s0 t =>
            rw [hfil] at hm
            rw [Ex12.download_states_cons, hm] at hok ⊢
            dsimp only at hok ⊢
            cases ht : Ex12.stepToThem
                (⟨dset st.relations p s0, st.outside_view⟩ : Ex12.St12) k c with
            | error e =>
                rw [ht] at hok
                simp at hok
            | ok stB =>
                rw [Ex12.download12_rel_untouched rest stB p hrestnil,
                  Ex12.stepToThem_relations ht]
                dsimp only
                rw [dlookup_dset, if_pos rfl]
      · rw [List.filter_cons_of_neg (by rw [Bool.not_eq_true] at hk; simp [hk])]
          at hkeys
        rw [Bool.not_eq_true] at hk
        cases hm : Ex12.stepToMe st k c with
        | error e =>
            rw [Ex12.download_states_cons, hm] at hok
            simp at hok
        | ok st1 =>
            cases ht : Ex12.stepToThem st1 k c with
            | error e =>
                rw [Ex12.download_states_cons, hm] at hok
                dsimp only at hok
                rw [ht] at hok
                simp at hok
            | ok st2 =>
                rw [Ex12.download_states_cons, hm] at hok ⊢
                dsimp only at hok ⊢
                rw [ht] at hok ⊢
                have hcur2 : dlookup st2.relations p = some rv := by
                  rw [Ex12.stepToThem_relations ht,
                    Ex12.stepToMe_rel_untouched hk hm]
                  exact hcur
                exact ih st2 p rv cs hcur2 hkeys hok

/-- Adoption at a `to_them:` key (mirror of `download12_rel_adopt` over
`outside_view`). -/
theorem download12_ov_adopt (input : List (String × List String)) :
    ∀ (st : Ex12.St12) (p rv : String) (cs : List String),
      dlookup st.outside_view p = some rv →
      (input.filter (Ex12.themKeyFor p)).map Prod.snd = [cs] →
      (Ex12.download_states st input).1 = .ok () →
      dlookup (Ex12.download_states st input).2.outside_view p
        = some (match cs.filter (fun s => s != rv) with
                | [] => rv
                | s0 :: _ => s0) := by
  induction input with
  | nil => intro st p rv cs hcur hkeys hok; simp at hkeys
  | cons kv rest ih =>
      intro st p rv cs hcur hkeys hok
      obtain ⟨k, c⟩ := kv
      by_cases hk : Ex12.themKeyFor p (k, c) = true
      · rw [List.filter_cons_of_pos hk] at hkeys
        simp only [List.map_cons, List.cons.injEq] at hkeys
        obtain ⟨hc, hrest0⟩ := hkeys
        have hrestnil : rest.filter (Ex12.themKeyFor p) = [] := by
          cases hre : rest.filter (Ex12.themKeyFor p) with
          | nil => rfl
          | cons x xs => rw [hre] at hrest0; simp at hrest0
        subst hc
        cases hm : Ex12.stepToMe st k c with
        | error e =>
            rw [Ex12.download_states_cons, hm] at hok
            simp at hok
        | ok st1 =>
            have hcur1 : dlookup st1.outside_view p = some rv := by
              rw [Ex12.stepToMe_outside_view hm]; exact hcur
            have ht := Ex12.stepToThem_ov_touched hk hcur1
            cases hfil : c.filter (fun s => s != rv) with
            | nil =>
                rw [hfil] at ht
                rw [Ex12.download_states_cons, hm] at hok ⊢
                dsimp only at hok ⊢
                rw [ht] at hok ⊢
                rw [Ex12.download12_ov_untouched rest st1 p hrestnil, hcur1]
            | cons s0 t =>
                rw [hfil] at ht
                rw [Ex12.download_states_cons, hm] at hok ⊢
                dsimp only at hok ⊢
                rw [ht] at hok ⊢
                rw [Ex12.download12_ov_untouched rest _ p hrestnil]
                dsimp only
                rw [dlookup_dset, if_pos rfl]
      · rw [List.filter_cons_of_neg (by rw [Bool.not_eq_true] at hk; simp [hk])]
          at hkeys
        rw [Bool.not_eq_true] at hk
        cases hm : Ex12.stepToMe st k c with
        | error e =>
            rw [Ex12.download_states_cons, hm] at hok
            simp at hok
        | ok st1 =>
            cases ht : Ex12.stepToThem st1 k c with
            | error e =>
                rw [Ex12.download_states_cons, hm] at hok
                dsimp only at hok
                rw [ht] at hok
                simp at hok
            | ok st2 =>
                rw [Ex12.download_states_cons, hm] at hok ⊢
                dsimp only at hok ⊢
                rw [ht] at hok ⊢
                have hcur2 : dlookup st2.outside_view p = some rv := by
                  rw [Ex12.stepToThem_ov_untouched hk ht,
                    Ex12.stepToMe_outside_view hm]
                  exact hcur
                exact ih st2 p rv cs hcur2 hkeys hok

/-- **C4**: the `downloadStates` adoption rule.  For the dual-namespace
variant of example_12, over any completed run on a pushed mapping: at the
unique key resolving to a known peer, the stored value stays unchanged
when every candidate equals it (string comparison) and otherwise becomes
the first differing candidate; peers no key resolves to keep their stored
value.  The flat single-state variant of example_9 obeys the same rule. -/
theorem c4_download_adoption
    (st : Ex12.St12) (input : List (String × List String))
    (p q rv ov state : String) (cs cs2 cands : List String) :
    (dlookup st.relations p = some rv →
     (input.filter (Ex12.relKeyFor p)).map Prod.snd = [cs] →
     (Ex12.download_states st input).1 = .ok () →
      ((∀ s ∈ cs, s = rv) →
          dlookup (Ex12.download_states st input).2.relations p = some rv)
      ∧ (∀ s0 t, cs.filter (fun s => s != rv) = s0 :: t →
          dlookup (Ex12.download_states st input).2.relations p = some s0))
    ∧ (dlookup st.outside_view q = some ov →
     (input.filter (Ex12.themKeyFor q)).map Prod.snd = [cs2] →
     (Ex12.download_states st input).1 = .ok () →
      ((∀ s ∈ cs2, s = ov) →
          dlookup (Ex12.download_states st input).2.outside_view q = some ov)
      ∧ (∀ s0 t, cs2.filter (fun s => s != ov) = s0 :: t →
          dlookup (Ex12.download_states st input).2.outside_view q = some s0))
    ∧ (input.filter (Ex12.relKeyFor p) = [] →
        dlookup (Ex12.download_states st input).2.relations p
          = dlookup st.relations p)
    ∧ (input.filter (Ex12.themKeyFor q) = [] →
        dlookup (Ex12.download_states st input).2.outside_view q
          = dlookup st.outside_view q)
    ∧ ((∀ s ∈ cands, s = state) → Ex9.download_states state cands = state)
    ∧ (∀ s0 t, cands.filter (fun s => s != state) = s0 :: t →
        Ex9.download_states state cands = s0) := by
  refine ⟨?_, ?_, ?_, ?_, ?_, ?_⟩
  · intro hcur hkeys hok
    have hmain := download12_rel_adopt input st p rv cs hcur hkeys hok
    constructor
    · intro hall
      have hfil : cs.filter (fun s => s != rv) = [] := by
        rw [List.filter_eq_nil_iff]
        intro a ha
        simp [hall a ha]
      rw [hfil] at hmain
      exact hmain
    · intro s0 t hfil
      rw [hfil] at hmain
      exact hmain
  · intro hcur hkeys hok
    have hmain := download12_ov_adopt input st q ov cs2 hcur hkeys hok
    constructor
    · intro hall
      have hfil : cs2.filter (fun s => s != ov) = [] := by
        rw [List.filter_eq_nil_iff]
        intro a ha
        simp [hall a ha]
      rw [hfil] at hmain
      exact hmain
    · intro s0 t hfil
      rw [hfil] at hmain
      exact hmain
  · exact Ex12.download12_rel_untouched input st p
  · exact Ex12.download12_ov_untouched input st q
  · intro hall
    have hfil : cands.filter (fun s => s != state) = [] := by
      rw [List.filter_eq_nil_iff]
      intro a ha
      simp [hall a ha]
    unfold Ex9.download_states
    rw [hfil]
  · intro s0 t hfil
    unfold Ex9.download_states
    rw [hfil]

/-- **C4, witness**. -/
theorem c4_witness :
    dlookup (Ex12.download_states ⟨[("X", "register")], [("X", "neutral")]⟩
        [("to_me:X", ["contact"]), ("to_them:X", ["good"])]).2.relations "X"
      = some "contact"
    ∧ dlookup (Ex12.download_states ⟨[("X", "register")], [("X", "neutral")]⟩
        [("to_me:X", ["contact"]), ("to_them:X", ["good"])]).2.outside_view "X"
      = some "good"
    ∧ Ex9.download_states "register" ["register", "contact"] = "contact" := by
  have h := c4_download_adoption ⟨[("X", "register")], [("X", "neutral")]⟩
    [("to_me:X", ["contact"]), ("to_them:X", ["good"])]
    "X" "X" "register" "neutral" "register"
    ["contact"] ["good"] ["register", "contact"]
  refine ⟨?_, ?_, ?_⟩
  · exact (h.1 (by decide) (by decide) (by decide)).2 "contact" [] (by decide)
  · exact (h.2.1 (by decide) (by decide) (by decide)).2 "good" [] (by decide)
  · exact h.2.2.2.2.2 "contact" [] (by decide)
